import Mathlib

/-!
# Murmure: the pass_persist request handlers

A shallow embedding of `snmp_get`, `snmp_getnext`, `snmp_set`, of one round of
the daemon loop and of the exit code of `main` (`src/murmure.cpp`), of
`Counter32::setValue` (`src/core/modules/counter32.cpp`) and of the Sequence
primitive (`src/murmure/primitives/sequence.cpp`), together with the classes
they call.  The functions are translated statement by statement from the
source; the classes whose implementation is not part of the sources at hand
(`Oid`, `Mibtable`, `Scheduler`, `Gauge`) are modelled from the specification
and marked so.

The process state a handler can touch is collected in `World`: the MIB table,
the lines written to `std::cout`, the environment variable `SNMP_VALUE`, and a
log of the calls made into the collaborating classes.
-/

namespace murmure

/-! ## Data model -/

/-- Modelled from the spec: numeric encoding of the `AccessMode` enumeration
(its header is not in the sources): NOT_ACCESSIBLE = 0, READ_ONLY = 1,
READ_WRITE = 2, READ_CREATE = 3.  An access mode is kept as its number, as the
`Oid` constructor receives it (`new Oid(..., 3, ...)`). -/
def AccessMode.NOT_ACCESSIBLE : Nat := 0

/-- Modelled from the spec: `AccessMode::READONLY`, encoded 1. -/
def AccessMode.READONLY : Nat := 1

/-- Modelled from the spec: `AccessMode::READWRITE`, encoded 2. -/
def AccessMode.READWRITE : Nat := 2

/-- Modelled from the spec: `AccessMode::READCREATE`, encoded 3. -/
def AccessMode.READCREATE : Nat := 3

/-- Modelled from the spec: the `EventMode` enumeration (header not in the sources). -/
inductive EventMode
  | GET
  | SET
  | AUTO
  | INIT
deriving DecidableEq, Repr

/-- Modelled from the spec: the attributes of the `Oid` class (header not in the
sources), in the order of the constructor call in `snmp_set`:
`Oid(oid, type, value, accessMode, name)`. -/
structure Oid where
  oid : String
  type : String
  value : String
  accessMode : Nat
  name : String
deriving DecidableEq, Repr, Inhabited

/-- Accessor `Oid::getOid`. -/
def Oid.getOid (o : Oid) : String := o.oid

/-- Accessor `Oid::getType`. -/
def Oid.getType (o : Oid) : String := o.type

/-- Accessor `Oid::getName`. -/
def Oid.getName (o : Oid) : String := o.name

/-- Accessor `Oid::getAccessMode`. -/
def Oid.getAccessMode (o : Oid) : Nat := o.accessMode

/-- Exceptions thrown by `std::stoi`. -/
inductive StoiError
  | invalid_argument
  | out_of_range
deriving DecidableEq, Repr

/-- What a call that may throw produces. -/
inductive Outcome (α : Type)
  | returned (a : α)
  | thrown (e : StoiError)
deriving DecidableEq, Repr

/-- Modelled from the spec: what the handlers cannot see of their collaborators
(the primitive layer behind `Oid`, the storage behind `Mibtable::addOid`, the
shell commands behind `Scheduler::fetchAndExec`; none of them is in the
sources).
* `primitiveType ty` is the tag `Oid::getPrimitiveType` returns for an OID of
  declared type `ty`;
* `printable ty v` is what `Oid::getPrintableValue` returns for an OID of type
  `ty` holding `v`;
* `accept o v` is the outcome of `Oid::setValue(v)` on `o`: it returns false
  (`none`) when the value is refused or cannot be persisted, it returns true
  (`some v1`) when the OID now holds `v1`, or it throws, as the `setValue` of
  the Counter32 module does through `std::stoi`;
* `persist o` tells whether storage accepts the new row `o`;
* `event env oids oid mode o` is the value held by the table entry `o` once the
  commands attached to `(oid, mode)` have run, started with `SNMP_VALUE = env`
  on the table entries `oids` (type, access mode and identifier are immutable
  after creation). -/
structure Collab where
  primitiveType : String → String
  printable : String → String → String
  accept : Oid → String → Outcome (Option String)
  persist : Oid → Bool
  event : Option String → List Oid → String → EventMode → Oid → String

/-- The same OID holding another value. -/
def Oid.withValue (o : Oid) (v : String) : Oid := { o with value := v }

/-- Method `Oid::getPrimitiveType`. -/
def Oid.getPrimitiveType (X : Collab) (o : Oid) : String := X.primitiveType o.type

/-- Method `Oid::getPrintableValue`. -/
def Oid.getPrintableValue (X : Collab) (o : Oid) : String := X.printable o.type o.value

/-- Call into a collaborating class, as recorded in `World.calls`. -/
inductive Call
  | getNextOid (arg : String)
  | setValue (oid : String) (value : String)
  | addOid (o : Oid)
  | setenv (name : String) (value : String)
  | fetchAndExec (oid : String) (mode : EventMode)
deriving DecidableEq, Repr

/-! ## Object identifiers as strings -/

/-- Split a character sequence at every dot. -/
def splitDots : List Char → List (List Char)
  | [] => [[]]
  | c :: cs =>
    if c = '.' then [] :: splitDots cs
    else
      match splitDots cs with
      | [] => [[c]]
      | p :: ps => (c :: p) :: ps

/-- Value of a decimal component. -/
def componentValue (cs : List Char) : Nat :=
  cs.foldl (fun n c => 10 * n + (c.toNat - '0'.toNat)) 0

/-- Modelled from the spec: the integer components of a dotted-decimal OID
string ("compared component-wise as unsigned integers, not as strings"). -/
def components (s : String) : List Nat :=
  (splitDots s.data).map componentValue

/-- Lexicographic comparison of component sequences. -/
def lexLt : List Nat → List Nat → Bool
  | _, [] => false
  | [], _ :: _ => true
  | a :: as, b :: bs => a < b || (a = b && lexLt as bs)

/-- Modelled from the spec: the SNMP order on OID strings. -/
def oidLt (a b : String) : Bool := lexLt (components a) (components b)

/-- Position of the last dot, `std::string::find_last_of(".")`; `none` is `npos`. -/
def find_last_of_dot : List Char → Option Nat
  | [] => none
  | c :: cs =>
    match find_last_of_dot cs with
    | some i => some (i + 1)
    | none => if c = '.' then some 0 else none

/-- The part of a string before a position, `std::string::substr(0, n)`. -/
def substr0 (s : String) (n : Nat) : String := String.mk (s.data.take n)

/-! ## The MIB table -/

/-- Modelled from the spec: the `Mibtable` class (not in the sources), the
ordered collection of the OIDs.  A pointer `Oid*` handed out by the table is the
position of the entry in `oids`. -/
structure Mibtable where
  oids : List Oid
deriving DecidableEq, Repr

/-- Position of the first entry with the given identifier. -/
def findOid : List Oid → String → Option Nat
  | [], _ => none
  | o :: t, s => if o.oid = s then some 0 else (findOid t s).map (· + 1)

/-- Modelled from the spec: `Mibtable::getOidByOid`, "exact match; None if
absent".  The result is the pointer to the entry. -/
def Mibtable.getOidByOid (m : Mibtable) (s : String) : Option Nat := findOid m.oids s

/-- Dereference a pointer handed out by the table. -/
def Mibtable.at (m : Mibtable) (p : Nat) : Oid := m.oids.getD p default

/-- The table after the entry behind pointer `p` has become `o`. -/
def Mibtable.store (m : Mibtable) (p : Nat) (o : Oid) : Mibtable := ⟨m.oids.set p o⟩

/-- The table after every entry `o` has taken the value `f o`. -/
def Mibtable.mapValues (m : Mibtable) (f : Oid → String) : Mibtable :=
  ⟨m.oids.map (fun o => o.withValue (f o))⟩

/-- The better of a candidate successor and the best one found so far. -/
def nextStep (s : String) (best : Option String) (o : Oid) : Option String :=
  if oidLt s o.oid then
    match best with
    | none => some o.oid
    | some b => if oidLt o.oid b then some o.oid else some b
  else best

/-- Modelled from the spec: `Mibtable::getNextOid`, "the smallest OID strictly
greater than s in lexicographic component-wise order; empty if s is at or
beyond the maximum". -/
def Mibtable.getNextOid (m : Mibtable) (s : String) : String :=
  (m.oids.foldl (nextStep s) none).getD ""

/-- Modelled from the spec: `Mibtable::isTableChild`, "true iff an OID with
identifier parent exists and its type tag is SEQUENCE". -/
def Mibtable.isTableChild (m : Mibtable) (parent : String) : Bool :=
  match m.getOidByOid parent with
  | none => false
  | some p => (m.at p).getType = "SEQUENCE"

/-- Insert an entry before the first entry that is greater. -/
def insertOrdered (o : Oid) : List Oid → List Oid
  | [] => [o]
  | x :: t => if oidLt o.oid x.oid then o :: x :: t else x :: insertOrdered o t

/-- Modelled from the spec: `Mibtable::addOid`, "insert into both the in-memory
index and storage, preserving order; fails if the OID already exists".  The
result is `none` on failure. -/
def Mibtable.addOid (X : Collab) (m : Mibtable) (o : Oid) : Option Mibtable :=
  if (m.getOidByOid o.oid).isSome then none
  else if X.persist o then some ⟨insertOrdered o m.oids⟩
  else none

/-! ## Process state -/

/-- The state a request handler acts on; `uncaught` holds the exception that has
left the handlers, which nothing in `murmure.cpp` catches, so that the process
has terminated. -/
structure World where
  mibtab : Mibtable
  cout : List String
  snmpValue : Option String
  calls : List Call
  uncaught : Option StoiError
deriving DecidableEq, Repr

/-- Write one line, `std::cout << line << std::endl`. -/
def World.println (w : World) (line : String) : World :=
  { w with cout := w.cout ++ [line] }

/-- The same state with another table. -/
def World.withTable (w : World) (t : Mibtable) : World :=
  { w with mibtab := t }

/-- An exception leaves the handler: the process terminates. -/
def World.terminate (w : World) (e : StoiError) : World :=
  { w with uncaught := some e }

/-- Record a call into a collaborating class. -/
def World.record (w : World) (c : Call) : World :=
  { w with calls := w.calls ++ [c] }

/-- Modelled from the spec: `Scheduler::fetchAndExec(oid, mode)`, which runs the
commands attached to `(oid, mode)`; they may change the value of any entry. -/
def fetchAndExec (X : Collab) (w : World) (oid : String) (mode : EventMode) : World :=
  (w.record (Call.fetchAndExec oid mode)).withTable
    (w.mibtab.mapValues (X.event w.snmpValue w.mibtab.oids oid mode))

/-- Method `Oid::setValue(value)` called through the pointer `p`: on
success the entry holds the accepted value; the call may throw. -/
def setValue (X : Collab) (w : World) (p : Nat) (value : String) : Outcome Bool × World :=
  let o := w.mibtab.at p
  let w1 := w.record (Call.setValue o.oid value)
  match X.accept o value with
  | Outcome.thrown e => (Outcome.thrown e, w1)
  | Outcome.returned none => (Outcome.returned false, w1)
  | Outcome.returned (some v) =>
    (Outcome.returned true, w1.withTable (w.mibtab.store p (o.withValue v)))

/-- Library call `setenv("SNMP_VALUE", value, 1)`. -/
def setenv (w : World) (value : String) : World :=
  { (w.record (Call.setenv "SNMP_VALUE" value)) with snmpValue := some value }

/-! ## The request handlers (`src/murmure.cpp`) -/

/-- Handler `snmp_get` (murmure.cpp, lines 36-68). -/
def snmp_get (X : Collab) (w : World) (requestedOid : String) : World :=
  match w.mibtab.getOidByOid requestedOid with
  | none => w.println "no-such-name"
  | some reqOid =>
    if (w.mibtab.at reqOid).getAccessMode = AccessMode.NOT_ACCESSIBLE then
      w.println "no-access"
    else
      let w := fetchAndExec X w requestedOid EventMode.GET
      let w := w.println (w.mibtab.at reqOid).getOid
      let w := w.println ((w.mibtab.at reqOid).getPrimitiveType X)
      let w := w.println ((w.mibtab.at reqOid).getPrintableValue X)
      w

/-- The loop of `snmp_getnext` (murmure.cpp, lines 83-115); `fuel` bounds the
number of iterations and `none` means that the bound was reached.  `nextOid` is
the loop variable; `continue` re-enters the loop because `oidFound` is false. -/
def snmp_getnext_loop (X : Collab) : Nat → World → String → String → Option World
  | 0, _, _, _ => none
  | fuel + 1, w, requestedOid, nextOid =>
    let w := w.record (Call.getNextOid nextOid)
    let nextOid := w.mibtab.getNextOid nextOid
    if nextOid = "" then
      some (w.println "no-such-name")
    else
      match w.mibtab.getOidByOid nextOid with
      | none => some (w.println "no-such-name")
      | some assocOid =>
        if (w.mibtab.at assocOid).getAccessMode = AccessMode.NOT_ACCESSIBLE then
          snmp_getnext_loop X fuel w requestedOid nextOid
        else
          let w := fetchAndExec X w requestedOid EventMode.GET
          let w := w.println (w.mibtab.at assocOid).getOid
          let w := w.println ((w.mibtab.at assocOid).getPrimitiveType X)
          let w := w.println ((w.mibtab.at assocOid).getPrintableValue X)
          some w

/-- Handler `snmp_getnext` (murmure.cpp, lines 78-117), run for at most `fuel`
iterations of its loop. -/
def snmp_getnext (X : Collab) (fuel : Nat) (w : World) (requestedOid : String) : Option World :=
  snmp_getnext_loop X fuel w requestedOid requestedOid

/-- Handler `snmp_set` (murmure.cpp, lines 129-237).  An exception thrown by
`reqOid->setValue(value)` leaves the handler at that call. -/
def snmp_set (X : Collab) (w : World) (requestedOid datatype value : String) : World :=
  match w.mibtab.getOidByOid requestedOid with
  | none =>
    match find_last_of_dot requestedOid.data with
    | none => w.println "no-such-name"
    | some lastDotPos =>
      let parentOidStr := substr0 requestedOid lastDotPos
      if w.mibtab.isTableChild parentOidStr then
        match w.mibtab.getOidByOid parentOidStr with
        | none => w -- null pointer in the source; excluded by isTableChild
        | some parentOid =>
          let parent := w.mibtab.at parentOid
          if parent.getAccessMode ≠ AccessMode.READCREATE
              ∧ parent.getAccessMode ≠ AccessMode.READWRITE then
            w.println "read-only"
          else
            let childOid : Oid := Oid.mk requestedOid parent.getType value 3 parent.getName
            let w := w.record (Call.addOid childOid)
            match w.mibtab.addOid X childOid with
            | some t =>
              let w := w.withTable t
              let w := w.println childOid.getOid
              let w := w.println (childOid.getPrimitiveType X)
              let w := w.println (childOid.getPrintableValue X)
              let w := setenv w value
              fetchAndExec X w parentOidStr EventMode.SET
            | none => w.println "commit-failed"
      else
        w.println "no-such-name"
  | some reqOid =>
    if (w.mibtab.at reqOid).getAccessMode ≠ AccessMode.READWRITE then
      w.println "read-only"
    else
      let expectedType := (w.mibtab.at reqOid).getPrimitiveType X
      if expectedType ≠ datatype then
        w.println "wrong-type"
      else
        match setValue X w reqOid value with
        | (Outcome.thrown e, w) => w.terminate e
        | (Outcome.returned false, w) => w.println "commit-failed"
        | (Outcome.returned true, w) =>
          let w := setenv w value
          let w := fetchAndExec X w requestedOid EventMode.SET
          let w := w.println (w.mibtab.at reqOid).getOid
          let w := w.println ((w.mibtab.at reqOid).getPrimitiveType X)
          let w := w.println ((w.mibtab.at reqOid).getPrintableValue X)
          w

/-! ## The `set` branch of the daemon loop -/

/-- Position of the first space, `setParams.find(' ')`; `none` is `npos`. -/
def find_space : List Char → Option Nat
  | [] => none
  | c :: cs => if c = ' ' then some 0 else (find_space cs).map (· + 1)

/-- The part of a string from a position on, `std::string::substr(n)`. -/
def substrFrom (s : String) (n : Nat) : String := String.mk (s.data.drop n)

/-- Upper-casing of a string, `std::transform(..., ::toupper)`. -/
def toupper (s : String) : String := String.mk (s.data.map Char.toUpper)

/-- Branch `command == "set"` of the daemon loop (murmure.cpp, lines 373-395),
after the two follow-up lines `requestedOid` and `setParams` have been read.
Without a space in `setParams` the loop continues with the next command. -/
def daemon_set (X : Collab) (w : World) (requestedOid setParams : String) : World :=
  match find_space setParams.data with
  | none => w
  | some sepPos =>
    let datatype := substr0 setParams sepPos
    let value := substrFrom setParams (sepPos + 1)
    let datatype := toupper datatype
    snmp_set X w requestedOid datatype value

/-- Reading one line, `std::getline(std::cin, line)`: at the end of the input the
line read is empty. -/
def getline : List String → String × List String
  | [] => ("", [])
  | line :: rest => (line, rest)

/-- One round of the daemon loop (murmure.cpp, lines 359-395) for a non-empty
`command`, with the lines still to be read on `std::cin`; the result holds the
lines left.  A command that is none of `PING`, `get`, `getnext`, `set` falls
through every branch.  The loop of `snmp_getnext` runs for at most `fuel`
iterations. -/
def daemon_command (X : Collab) (fuel : Nat) (w : World) (command : String)
    (stdin : List String) : Option (World × List String) :=
  if command = "PING" then
    some (w.println "PONG", stdin)
  else if command = "get" then
    let (requestedOid, stdin) := getline stdin
    some (snmp_get X w requestedOid, stdin)
  else if command = "getnext" then
    let (requestedOid, stdin) := getline stdin
    (snmp_getnext X fuel w requestedOid).map (fun w1 => (w1, stdin))
  else if command = "set" then
    let (requestedOid, stdin) := getline stdin
    let (setParams, stdin) := getline stdin
    some (daemon_set X w requestedOid setParams, stdin)
  else
    some (w, stdin)

/-! ## A concrete primitive layer for the scenarios of the specification -/

/-- Sequence primitive (`src/murmure/primitives/sequence.cpp`): the string it was
constructed with, kept by its base class. -/
structure Sequence where
  value : String
deriving DecidableEq, Repr

/-- Method `Sequence<std::string>::setValue(oid, value)`: "Has no value, just return". -/
def Sequence.setValue (self : Sequence) (_oid _value : String) : Bool × Sequence :=
  (true, self)

/-- Method `Sequence<std::string>::getValue`. -/
def Sequence.getValue (_self : Sequence) : String := ""

/-- Method `Sequence<std::string>::getPrintableValue`. -/
def Sequence.getPrintableValue (_self : Sequence) : String := ""

/-- Whether a character sequence is a non-empty run of decimal digits. -/
def isDecimal (cs : List Char) : Bool :=
  !cs.isEmpty && cs.all Char.isDigit

/-- Modelled from the spec: validation of an `INTEGER`, "decimal integer in
[-2^31, 2^31-1]". -/
def validInteger (v : String) : Bool :=
  match v.data with
  | '-' :: cs => isDecimal cs && componentValue cs ≤ 2 ^ 31
  | cs => isDecimal cs && componentValue cs < 2 ^ 31

/-- Modelled from the spec: a primitive layer for the type tags used in the
scenarios of the specification.  `SEQUENCE` follows `sequence.cpp` (set is a
successful no-op, the printable form is empty), `INTEGER` validates its range,
`OCTET STRING` stores any value verbatim, every other tag refuses to be set; the
tag printed is the declared type.  Storage accepts every row and no commands
are attached to any event. -/
def scenario : Collab where
  primitiveType := fun ty => ty
  printable := fun ty v =>
    if ty = "SEQUENCE" then (Sequence.mk v).getPrintableValue else v
  accept := fun o v =>
    Outcome.returned
      (if o.type = "SEQUENCE" then
        if ((Sequence.mk o.value).setValue o.oid v).1 then some o.value else none
      else if o.type = "INTEGER" then
        if validInteger v then some v else none
      else if o.type = "OCTET STRING" then some v
      else none)
  persist := fun _ => true
  event := fun _ _ _ _ o => o.value

/-- The same layer over a storage that refuses every new row. -/
def scenarioStorageDown : Collab :=
  { scenario with persist := fun _ => false }

/-- A world holding the given entries, with nothing written yet. -/
def World.init (oids : List Oid) : World :=
  { mibtab := ⟨oids⟩, cout := [], snmpValue := none, calls := [], uncaught := none }

/-! ## The Counter32 module (`src/core/modules/counter32.cpp`) -/

/-- Whitespace skipped at the start of a conversion, `isspace` in the C locale. -/
def isspace (c : Char) : Bool :=
  c.toNat = 32 || (9 ≤ c.toNat && c.toNat ≤ 13)

/-- The range check of `std::stoi`: a value that does not fit a 32-bit `int`
makes it throw `std::out_of_range`. -/
def intRange (n : Int) : Outcome Int :=
  if n < - 2 ^ 31 ∨ 2 ^ 31 - 1 < n then Outcome.thrown StoiError.out_of_range
  else Outcome.returned n

/-- Library function `std::stoi(value)` for a 32-bit `int`: leading whitespace
and an optional sign are skipped, the longest run of decimal digits is
converted; without a digit the call throws `std::invalid_argument`, and with a
value outside [-2^31, 2^31-1] it throws `std::out_of_range`. -/
def stoi (value : String) : Outcome Int :=
  let cs := value.data.dropWhile isspace
  let signed : Bool × List Char :=
    match cs with
    | '-' :: r => (true, r)
    | '+' :: r => (false, r)
    | r => (false, r)
  let digits := signed.2.takeWhile Char.isDigit
  if digits.isEmpty then Outcome.thrown StoiError.invalid_argument
  else
    intRange (if signed.1 then - (componentValue digits : Int) else componentValue digits)

/-- Modelled from the spec: the `Gauge<unsigned int>` primitive behind the
module (not in the sources), an unsigned 32-bit value. -/
structure Gauge where
  value : Nat
deriving DecidableEq, Repr

/-- Modelled from the spec: `Gauge<unsigned int>::setValue(oid, value)`, which
accepts a "decimal in [0, 2^32-1]" and then holds it, and refuses anything else. -/
def Gauge.setValue (g : Gauge) (_oid value : String) : Bool × Gauge :=
  if isDecimal value.data && componentValue value.data < 2 ^ 32 then
    (true, ⟨componentValue value.data⟩)
  else (false, g)

/-- State of a `Counter32` module: the `primitive` pointer of `Module`
(`none` is `nullptr`) with the primitive it points to. -/
structure Counter32 where
  primitive : Option Gauge
deriving DecidableEq, Repr

/-- Method `Counter32::setValue(oid, value)` (counter32.cpp, lines 76-87), over the
`setValue` of the primitive.  The comparison is made in a 64-bit type, since
the literal `4294967295` does not fit an `int`. -/
def Counter32.setValue (primitiveSet : Gauge → String → String → Bool × Gauge)
    (self : Counter32) (oid value : String) : Outcome (Bool × Counter32) :=
  match self.primitive with
  | none => Outcome.returned (false, self)
  | some primitivePtr =>
    match stoi value with
    | Outcome.thrown e => Outcome.thrown e
    | Outcome.returned n =>
      if n > 4294967295 then Outcome.returned (false, self)
      else
        let r := primitiveSet primitivePtr oid value
        Outcome.returned (r.1, { self with primitive := some r.2 })

/-- Modelled from the spec: the layer of `scenario` with OIDs of type `COUNTER32`
served by the Counter32 module: their `setValue` is `Counter32::setValue` over
a `Gauge` primitive holding the current value, and their type tag is the one
of a GAUGE ("the Counter32 wrapper carries a GAUGE type tag"). -/
def scenarioCounter32 : Collab :=
  { scenario with
    primitiveType := fun ty => if ty = "COUNTER32" then "GAUGE" else ty
    accept := fun o v =>
      if o.type = "COUNTER32" then
        match Counter32.setValue Gauge.setValue ⟨some ⟨componentValue o.value.data⟩⟩ o.oid v with
        | Outcome.thrown e => Outcome.thrown e
        | Outcome.returned r => Outcome.returned (if r.1 then some v else none)
      else scenario.accept o v }

/-- Modelled from the spec: the `Command` enumeration filled in by `getOpts`
(header not in the sources); `UNKNOWN` stands for any value that no branch of
`main` tests for. -/
inductive Command
  | HELP
  | DAEMON
  | GET
  | GET_NEXT
  | SET
  | PARSE_MIB
  | SCHEDULE
  | DUMP_SCHEDULE
  | RESET
  | CHANGE
  | UNKNOWN
deriving DecidableEq, Repr

/-- What the calls made by `main` return in one run of the program; a field is
read only on the paths that make the call. -/
structure Run where
  getOpts : Bool
  command : Command
  argsSize : Nat
  initializeDatabase : Bool
  loadMibTable : Bool
  loadEvents : Bool
  startScheduler : Bool
  parseMibFile : Bool
  parseScheduling : Bool
  dumpScheduling : Bool
  clearEvents : Bool
  clearMibtable : Bool
  getOidByOid : Bool
  setValue : Bool
deriving DecidableEq, Repr

/-- An assignment `exitcode = value`: the value held before is lost. -/
def assign (_held value : Nat) : Nat := value

/-- Exit code of `main` (murmure.cpp, lines 260-708): the `return` statements
and the assignments to `exitcode`, in the order of the source. -/
def main (r : Run) : Nat :=
  let exitcode := 0
  if !r.getOpts then 255
  else if !r.initializeDatabase then 1
  else
    match r.command with
    | Command.HELP => exitcode
    | Command.DAEMON | Command.GET | Command.GET_NEXT | Command.SET =>
      if !r.loadMibTable then 1
      else if !r.loadEvents then 2
      else if !r.startScheduler then 2
      else exitcode
    | Command.PARSE_MIB =>
      let exitcode := if r.parseMibFile then exitcode else assign exitcode 1
      exitcode
    | Command.SCHEDULE =>
      if !r.loadMibTable then 1
      else if !r.loadEvents then 2
      else
        let exitcode :=
          if r.argsSize = 1 then
            if r.parseScheduling then exitcode else assign exitcode 1
          else exitcode
        exitcode
    | Command.DUMP_SCHEDULE =>
      if !r.loadMibTable then 1
      else if !r.loadEvents then 2
      else
        let exitcode := if !r.dumpScheduling then assign exitcode 1 else exitcode
        let exitcode := assign exitcode 0
        exitcode
    | Command.RESET =>
      if !r.loadMibTable then 1
      else if !r.clearEvents then 1
      else if !r.clearMibtable then 1
      else
        let exitcode := assign exitcode 0
        exitcode
    | Command.CHANGE =>
      if !r.loadMibTable then 1
      else
        let exitcode :=
          if !r.getOidByOid then assign exitcode 1
          else if r.setValue then assign exitcode 0
          else assign exitcode 1
        exitcode
    | Command.UNKNOWN =>
      let exitcode := assign exitcode 255
      exitcode

/-! ## Notions used to state the properties -/

/-- Table invariant "`oid` is globally unique", read in the order of the table:
two entries with the same component sequence are the same entry. -/
def Mibtable.uniqueOids (m : Mibtable) : Prop :=
  ∀ a ∈ m.oids, ∀ b ∈ m.oids, components a.oid = components b.oid → a = b

instance (m : Mibtable) : Decidable m.uniqueOids := by
  unfold Mibtable.uniqueOids
  infer_instance

/-- The entry `r` is the smallest entry of the table that is strictly greater
than `s` and not NOT_ACCESSIBLE. -/
def SmallestAccessibleAfter (m : Mibtable) (s : String) (r : Oid) : Prop :=
  r ∈ m.oids ∧ oidLt s r.oid = true ∧ r.getAccessMode ≠ AccessMode.NOT_ACCESSIBLE ∧
    ∀ o ∈ m.oids, oidLt s o.oid = true → o.getAccessMode ≠ AccessMode.NOT_ACCESSIBLE →
      oidLt o.oid r.oid = false

instance (m : Mibtable) (s : String) (r : Oid) : Decidable (SmallestAccessibleAfter m s r) := by
  unfold SmallestAccessibleAfter
  infer_instance

/-- The state after the calls `cs` have been recorded, nothing else changed. -/
def World.recordAll (w : World) (cs : List Call) : World :=
  { w with calls := w.calls ++ cs }

/-- The three lines of a frame, read through the pointer `p` and written. -/
def World.printFrame (X : Collab) (w : World) (p : Nat) : World :=
  ((w.println (w.mibtab.at p).getOid).println
    ((w.mibtab.at p).getPrimitiveType X)).println ((w.mibtab.at p).getPrintableValue X)

/-- A run of `setValue(oid, value)` calls on a Sequence primitive. -/
def Sequence.setValues (self : Sequence) : List (String × String) → Sequence
  | [] => self
  | (oid, value) :: rest => Sequence.setValues (self.setValue oid value).2 rest

/-- Number of entries of the table that are strictly greater than `s`. -/
def Mibtable.above (m : Mibtable) (s : String) : Nat :=
  m.oids.countP (fun o => oidLt s o.oid)

/-! ## Basic facts about the table -/

theorem findOid_lt {l : List Oid} {s : String} {p : Nat} (h : findOid l s = some p) :
    p < l.length := by
  induction l generalizing p with
  | nil => simp [findOid] at h
  | cons o t ih =>
    simp only [findOid] at h
    split at h
    · simp at h; subst h; simp
    · cases hf : findOid t s with
      | none => simp [hf] at h
      | some q =>
        simp [hf] at h
        subst h
        have := ih hf
        simp; omega

theorem findOid_oid {l : List Oid} {s : String} {p : Nat} (h : findOid l s = some p) :
    (l.getD p default).oid = s := by
  induction l generalizing p with
  | nil => simp [findOid] at h
  | cons o t ih =>
    simp only [findOid] at h
    split at h
    · rename_i ho
      simp at h; subst h; simpa using ho
    · cases hf : findOid t s with
      | none => simp [hf] at h
      | some q =>
        simp [hf] at h
        subst h
        simpa using ih hf

theorem findOid_eq_none {l : List Oid} {s : String} :
    findOid l s = none ↔ ∀ o ∈ l, o.oid ≠ s := by
  induction l with
  | nil => simp [findOid]
  | cons o t ih =>
    simp only [findOid]
    split
    · rename_i ho
      simp [ho]
    · rename_i ho
      simp [ih, ho]

theorem getD_mem {l : List Oid} {p : Nat} (h : p < l.length) : l.getD p default ∈ l := by
  rw [List.getD_eq_getElem l default h]
  exact List.getElem_mem h

theorem at_mem {m : Mibtable} {p : Nat} (h : p < m.oids.length) : m.at p ∈ m.oids :=
  getD_mem h

theorem getOidByOid_lt {m : Mibtable} {s : String} {p : Nat} (h : m.getOidByOid s = some p) :
    p < m.oids.length := findOid_lt h

theorem getOidByOid_oid {m : Mibtable} {s : String} {p : Nat} (h : m.getOidByOid s = some p) :
    (m.at p).oid = s := findOid_oid h

@[simp]
theorem println_mibtab (w : World) (l : String) : (w.println l).mibtab = w.mibtab := rfl
@[simp]
theorem println_cout (w : World) (l : String) : (w.println l).cout = w.cout ++ [l] := rfl
@[simp]
theorem println_calls (w : World) (l : String) : (w.println l).calls = w.calls := rfl
@[simp]
theorem println_snmpValue (w : World) (l : String) :
    (w.println l).snmpValue = w.snmpValue := rfl
@[simp]
theorem record_mibtab (w : World) (c : Call) : (w.record c).mibtab = w.mibtab := rfl
@[simp]
theorem record_cout (w : World) (c : Call) : (w.record c).cout = w.cout := rfl
@[simp]
theorem record_calls (w : World) (c : Call) : (w.record c).calls = w.calls ++ [c] := rfl
@[simp]
theorem record_snmpValue (w : World) (c : Call) :
    (w.record c).snmpValue = w.snmpValue := rfl
@[simp]
theorem setenv_mibtab (w : World) (v : String) : (setenv w v).mibtab = w.mibtab := rfl
@[simp]
theorem setenv_cout (w : World) (v : String) : (setenv w v).cout = w.cout := rfl
@[simp]
theorem setenv_calls (w : World) (v : String) :
    (setenv w v).calls = w.calls ++ [Call.setenv "SNMP_VALUE" v] := rfl
@[simp]
theorem setenv_snmpValue (w : World) (v : String) : (setenv w v).snmpValue = some v := rfl
@[simp]
theorem fetchAndExec_cout (X : Collab) (w : World) (s : String) (e : EventMode) :
    (fetchAndExec X w s e).cout = w.cout := rfl
@[simp]
theorem fetchAndExec_calls (X : Collab) (w : World) (s : String) (e : EventMode) :
    (fetchAndExec X w s e).calls = w.calls ++ [Call.fetchAndExec s e] := rfl
@[simp]
theorem fetchAndExec_snmpValue (X : Collab) (w : World) (s : String) (e : EventMode) :
    (fetchAndExec X w s e).snmpValue = w.snmpValue := rfl

@[simp]
theorem withTable_mibtab (w : World) (t : Mibtable) : (w.withTable t).mibtab = t := rfl
@[simp]
theorem withTable_cout (w : World) (t : Mibtable) : (w.withTable t).cout = w.cout := rfl
@[simp]
theorem withTable_calls (w : World) (t : Mibtable) : (w.withTable t).calls = w.calls := rfl
@[simp]
theorem withTable_snmpValue (w : World) (t : Mibtable) :
    (w.withTable t).snmpValue = w.snmpValue := rfl
@[simp]
theorem terminate_mibtab (w : World) (e : StoiError) : (w.terminate e).mibtab = w.mibtab := rfl
@[simp]
theorem terminate_cout (w : World) (e : StoiError) : (w.terminate e).cout = w.cout := rfl
@[simp]
theorem terminate_calls (w : World) (e : StoiError) : (w.terminate e).calls = w.calls := rfl
@[simp]
theorem terminate_snmpValue (w : World) (e : StoiError) :
    (w.terminate e).snmpValue = w.snmpValue := rfl
@[simp]
theorem terminate_uncaught (w : World) (e : StoiError) :
    (w.terminate e).uncaught = some e := rfl
@[simp]
theorem fetchAndExec_mibtab (X : Collab) (w : World) (s : String) (e : EventMode) :
    (fetchAndExec X w s e).mibtab = w.mibtab.mapValues (X.event w.snmpValue w.mibtab.oids s e) := rfl
@[simp]
theorem withValue_oid (o : Oid) (v : String) : (o.withValue v).oid = o.oid := rfl
@[simp]
theorem withValue_type (o : Oid) (v : String) : (o.withValue v).type = o.type := rfl
@[simp]
theorem withValue_value (o : Oid) (v : String) : (o.withValue v).value = v := rfl
@[simp]
theorem withValue_accessMode (o : Oid) (v : String) :
    (o.withValue v).accessMode = o.accessMode := rfl
@[simp]
theorem withValue_name (o : Oid) (v : String) : (o.withValue v).name = o.name := rfl

theorem withValue_self (o : Oid) : o.withValue o.value = o := rfl

@[simp]
theorem mapValues_length (m : Mibtable) (f : Oid → String) :
    (m.mapValues f).oids.length = m.oids.length := by
  simp [Mibtable.mapValues]

@[simp]
theorem store_length (m : Mibtable) (p : Nat) (o : Oid) :
    (m.store p o).oids.length = m.oids.length := by
  simp [Mibtable.store]

/-- The entry behind a pointer after an event has run: only its value changed. -/
theorem mapValues_at (m : Mibtable) (f : Oid → String) (p : Nat) (h : p < m.oids.length) :
    (m.mapValues f).at p = (m.at p).withValue (f (m.at p)) := by
  simp only [Mibtable.mapValues, Mibtable.at]
  rw [List.getD_eq_getElem _ default (by simpa using h), List.getD_eq_getElem _ default h]
  simp

/-- The entry behind a pointer after it has been stored to. -/
theorem store_at (m : Mibtable) (p : Nat) (o : Oid) (h : p < m.oids.length) :
    (m.store p o).at p = o := by
  simp only [Mibtable.store, Mibtable.at]
  rw [List.getD_eq_getElem _ default (by simpa using h)]
  simp

/-- With no command attached to the event, the table is unchanged. -/
theorem mapValues_inert (m : Mibtable) (f : Oid → String) (h : ∀ o, f o = o.value) :
    m.mapValues f = m := by
  cases m with
  | mk l =>
    simp only [Mibtable.mapValues, h, Mibtable.mk.injEq]
    induction l with
    | nil => rfl
    | cons a t ih => simp [withValue_self]

/-! ## GET -/

/-- Claim C9. `snmp_get` answers with a single line exactly when the requested OID is
absent or NOT_ACCESSIBLE: the line is `no-such-name` when `getOidByOid` finds
nothing and `no-access` when the entry is NOT_ACCESSIBLE; in both cases nothing
else happens (no call is recorded, so no GET event runs, and the table is
untouched). -/
theorem snmp_get_error_reply (X : Collab) (w : World) (requestedOid : String) :
    (w.mibtab.getOidByOid requestedOid = none →
        snmp_get X w requestedOid = w.println "no-such-name") ∧
    (∀ p, w.mibtab.getOidByOid requestedOid = some p →
        (w.mibtab.at p).getAccessMode = AccessMode.NOT_ACCESSIBLE →
        snmp_get X w requestedOid = w.println "no-access") ∧
    ((∃ line, (snmp_get X w requestedOid).cout = w.cout ++ [line]) ↔
        (w.mibtab.getOidByOid requestedOid = none ∨
          ∃ p, w.mibtab.getOidByOid requestedOid = some p ∧
            (w.mibtab.at p).getAccessMode = AccessMode.NOT_ACCESSIBLE)) := by
  refine ⟨?_, ?_, ?_⟩
  · intro h
    simp [snmp_get, h]
  · intro p h hacc
    simp [snmp_get, h, hacc]
  · cases h : w.mibtab.getOidByOid requestedOid with
    | none => simp [snmp_get, h, World.println]
    | some p =>
      by_cases hacc : (w.mibtab.at p).getAccessMode = AccessMode.NOT_ACCESSIBLE
      · simp [snmp_get, h, hacc, World.println]
      · simp [snmp_get, h, hacc]

/-- Scenarios 1 and 2 of the specification: GET on a missing OID and on a
NOT_ACCESSIBLE one. -/
theorem snmp_get_error_reply_witness :
    (snmp_get scenario (World.init []) "1.3.6.1").cout = ["no-such-name"] ∧
    (snmp_get scenario (World.init [⟨"1.3.6.1.2.1.1", "SEQUENCE", "", 0, "system"⟩])
        "1.3.6.1.2.1.1").cout = ["no-access"] ∧
    (snmp_get scenario (World.init [⟨"1.3.6.1.2.1.1", "SEQUENCE", "", 0, "system"⟩])
        "1.3.6.1.2.1.1").calls = [] := by
  refine ⟨?_, ?_, ?_⟩
  · rw [(snmp_get_error_reply scenario (World.init []) "1.3.6.1").1 (by decide)]
    decide
  · rw [(snmp_get_error_reply scenario
      (World.init [⟨"1.3.6.1.2.1.1", "SEQUENCE", "", 0, "system"⟩]) "1.3.6.1.2.1.1").2.1 0
      (by decide) (by decide)]
    decide
  · rw [(snmp_get_error_reply scenario
      (World.init [⟨"1.3.6.1.2.1.1", "SEQUENCE", "", 0, "system"⟩]) "1.3.6.1.2.1.1").2.1 0
      (by decide) (by decide)]
    decide

/-- Claim C10. For an OID that is present and not NOT_ACCESSIBLE (READ_ONLY,
READ_WRITE or READ_CREATE), `snmp_get` calls `fetchAndExec(oid, GET)` exactly
once and makes no other call, then writes exactly three lines: the identifier,
the type tag, and the printable form of the value the entry holds after the
event has run.  The table it leaves is the one the event left: `snmp_get`
itself changes no entry. -/
theorem snmp_get_frame (X : Collab) (w : World) (requestedOid : String) (p : Nat)
    (hfind : w.mibtab.getOidByOid requestedOid = some p)
    (hacc : (w.mibtab.at p).getAccessMode ≠ AccessMode.NOT_ACCESSIBLE) :
    (snmp_get X w requestedOid).calls
        = w.calls ++ [Call.fetchAndExec requestedOid EventMode.GET] ∧
    (snmp_get X w requestedOid).cout
        = w.cout ++ [requestedOid, X.primitiveType (w.mibtab.at p).type,
            X.printable (w.mibtab.at p).type
              (X.event w.snmpValue w.mibtab.oids requestedOid EventMode.GET (w.mibtab.at p))] ∧
    (snmp_get X w requestedOid).mibtab
        = (fetchAndExec X w requestedOid EventMode.GET).mibtab ∧
    ((∀ o, X.event w.snmpValue w.mibtab.oids requestedOid EventMode.GET o = o.value) →
        (snmp_get X w requestedOid).mibtab = w.mibtab) := by
  have hlt : p < w.mibtab.oids.length := getOidByOid_lt hfind
  have hoid : (w.mibtab.at p).oid = requestedOid := getOidByOid_oid hfind
  have hcell := mapValues_at w.mibtab (X.event w.snmpValue w.mibtab.oids requestedOid EventMode.GET) p hlt
  refine ⟨?_, ?_, ?_, ?_⟩
  · simp [snmp_get, hfind, hacc]
  · simp [snmp_get, hfind, hacc, hcell, Oid.getOid, Oid.getPrimitiveType,
      Oid.getPrintableValue, hoid]
  · simp [snmp_get, hfind, hacc]
  · intro hinert
    simp [snmp_get, hfind, hacc, mapValues_inert _ _ hinert]

/-- A READ_ONLY INTEGER entry is served with its three-line frame. -/
theorem snmp_get_frame_witness :
    (snmp_get scenario (World.init [⟨"1.3.6.1.2", "INTEGER", "5", 1, "x"⟩]) "1.3.6.1.2").cout
        = ["1.3.6.1.2", "INTEGER", "5"] ∧
    (snmp_get scenario (World.init [⟨"1.3.6.1.2", "INTEGER", "5", 1, "x"⟩]) "1.3.6.1.2").calls
        = [Call.fetchAndExec "1.3.6.1.2" EventMode.GET] := by
  have h := snmp_get_frame scenario (World.init [⟨"1.3.6.1.2", "INTEGER", "5", 1, "x"⟩])
    "1.3.6.1.2" 0 (by decide) (by decide)
  exact ⟨h.2.1.trans (by decide), h.1.trans (by decide)⟩


/-! ## SET on an existing OID -/

theorem setValue_refused (X : Collab) (w : World) (p : Nat) (v : String)
    (h : X.accept (w.mibtab.at p) v = Outcome.returned none) :
    setValue X w p v
      = (Outcome.returned false, w.record (Call.setValue (w.mibtab.at p).oid v)) := by
  simp [setValue, h]

theorem setValue_accepted (X : Collab) (w : World) (p : Nat) (v v1 : String)
    (h : X.accept (w.mibtab.at p) v = Outcome.returned (some v1)) :
    setValue X w p v = (Outcome.returned true,
      (w.record (Call.setValue (w.mibtab.at p).oid v)).withTable
      (w.mibtab.store p ((w.mibtab.at p).withValue v1))) := by
  simp [setValue, h]

/-- Claim C5. A SET on an OID that exists with an access mode other than READ_WRITE
(NOT_ACCESSIBLE, READ_ONLY, READ_CREATE), with any datatype and any value,
writes the single line `read-only` and does nothing else: the resulting state
differs from the initial one in that line only, so `setValue` is not called, no
SET event runs and the value is unchanged.  The access check comes before the
type check and the commit. -/
theorem snmp_set_read_only (X : Collab) (w : World) (requestedOid datatype value : String)
    (p : Nat) (hfind : w.mibtab.getOidByOid requestedOid = some p)
    (hacc : (w.mibtab.at p).getAccessMode ≠ AccessMode.READWRITE) :
    snmp_set X w requestedOid datatype value = w.println "read-only" ∧
    (snmp_set X w requestedOid datatype value).cout = w.cout ++ ["read-only"] ∧
    (snmp_set X w requestedOid datatype value).calls = w.calls ∧
    (snmp_set X w requestedOid datatype value).mibtab = w.mibtab ∧
    (snmp_set X w requestedOid datatype value).snmpValue = w.snmpValue := by
  have h : snmp_set X w requestedOid datatype value = w.println "read-only" := by
    simp [snmp_set, hfind, hacc]
  simp [h]

/-- A READ_CREATE entry refuses a SET whose datatype does not even match and whose
value the type would reject. -/
theorem snmp_set_read_only_witness :
    (snmp_set scenario (World.init [⟨"1.3.6.1.2", "INTEGER", "5", 3, "x"⟩])
        "1.3.6.1.2" "OCTET STRING" "not a number").cout = ["read-only"] ∧
    (snmp_set scenario (World.init [⟨"1.3.6.1.2", "INTEGER", "5", 3, "x"⟩])
        "1.3.6.1.2" "OCTET STRING" "not a number").mibtab
      = ⟨[⟨"1.3.6.1.2", "INTEGER", "5", 3, "x"⟩]⟩ := by
  have h := snmp_set_read_only scenario (World.init [⟨"1.3.6.1.2", "INTEGER", "5", 3, "x"⟩])
    "1.3.6.1.2" "OCTET STRING" "not a number" 0 (by decide) (by decide)
  exact ⟨h.2.1.trans (by decide), h.2.2.2.1.trans (by decide)⟩

theorem setValue_thrown (X : Collab) (w : World) (p : Nat) (v : String) (e : StoiError)
    (h : X.accept (w.mibtab.at p) v = Outcome.thrown e) :
    setValue X w p v
      = (Outcome.thrown e, w.record (Call.setValue (w.mibtab.at p).oid v)) := by
  simp [setValue, h]

/-- The state `snmp_set` reaches when the commit on an existing READ_WRITE OID of
the right type throws: nothing is written and the process terminates. -/
theorem snmp_set_uncaught (X : Collab) (w : World) (requestedOid datatype value : String)
    (p : Nat) (e : StoiError) (hfind : w.mibtab.getOidByOid requestedOid = some p)
    (hacc : (w.mibtab.at p).getAccessMode = AccessMode.READWRITE)
    (htype : (w.mibtab.at p).getPrimitiveType X = datatype)
    (hv : X.accept (w.mibtab.at p) value = Outcome.thrown e) :
    snmp_set X w requestedOid datatype value
      = (w.record (Call.setValue requestedOid value)).terminate e := by
  have hoid : (w.mibtab.at p).oid = requestedOid := getOidByOid_oid hfind
  have hs := setValue_thrown X w p value e hv
  simp [snmp_set, hfind, hacc, htype, hs, hoid]

/-- The state `snmp_set` reaches when the commit on an existing READ_WRITE OID of
the right type succeeds. -/
theorem snmp_set_committed (X : Collab) (w : World) (requestedOid datatype value : String)
    (p : Nat) (v1 : String) (hfind : w.mibtab.getOidByOid requestedOid = some p)
    (hacc : (w.mibtab.at p).getAccessMode = AccessMode.READWRITE)
    (htype : (w.mibtab.at p).getPrimitiveType X = datatype)
    (hv : X.accept (w.mibtab.at p) value = Outcome.returned (some v1)) :
    snmp_set X w requestedOid datatype value
      = (((fetchAndExec X (setenv ((w.record (Call.setValue requestedOid value)).withTable
            (w.mibtab.store p ((w.mibtab.at p).withValue v1))) value)
          requestedOid EventMode.SET).println requestedOid).println datatype).println
          (X.printable (w.mibtab.at p).type
            (X.event (some value) (w.mibtab.store p ((w.mibtab.at p).withValue v1)).oids
              requestedOid EventMode.SET
              ((w.mibtab.at p).withValue v1))) := by
  have hlt : p < w.mibtab.oids.length := getOidByOid_lt hfind
  have hoid : (w.mibtab.at p).oid = requestedOid := getOidByOid_oid hfind
  have hs := setValue_accepted X w p value v1 hv
  have hcell := mapValues_at (w.mibtab.store p ((w.mibtab.at p).withValue v1))
    (X.event (some value) (w.mibtab.store p ((w.mibtab.at p).withValue v1)).oids
              requestedOid EventMode.SET) p (by simpa using hlt)
  rw [store_at _ _ _ hlt] at hcell
  have htype1 : X.primitiveType (w.mibtab.at p).type = datatype := htype
  simp [snmp_set, hfind, hacc, htype, hs, hcell, Oid.getOid, Oid.getPrimitiveType,
    Oid.getPrintableValue, hoid, htype1]

/-- The state `snmp_set` reaches when the commit on an existing READ_WRITE OID of
the right type fails. -/
theorem snmp_set_commit_failed (X : Collab) (w : World) (requestedOid datatype value : String)
    (p : Nat) (hfind : w.mibtab.getOidByOid requestedOid = some p)
    (hacc : (w.mibtab.at p).getAccessMode = AccessMode.READWRITE)
    (htype : (w.mibtab.at p).getPrimitiveType X = datatype)
    (hv : X.accept (w.mibtab.at p) value = Outcome.returned none) :
    snmp_set X w requestedOid datatype value
      = (w.record (Call.setValue requestedOid value)).println "commit-failed" := by
  have hoid : (w.mibtab.at p).oid = requestedOid := getOidByOid_oid hfind
  have hs := setValue_refused X w p value hv
  simp [snmp_set, hfind, hacc, htype, hs, hoid]

/-- Claim C6. A SET on an existing READ_WRITE OID whose incoming datatype equals the
type tag.  If `Oid::setValue(value)` succeeds, `SNMP_VALUE` is set to the
incoming value, the calls made are `setValue`, `setenv` and then exactly one
`fetchAndExec(requested OID, SET)`, and exactly three lines are written: the
OID, its type tag and the printable form of the value held after the set and
the event.  If `setValue` fails, the single line `commit-failed` is written,
`SNMP_VALUE` keeps its value, the table is unchanged and no event runs. -/
theorem snmp_set_commit (X : Collab) (w : World) (requestedOid datatype value : String)
    (p : Nat) (hfind : w.mibtab.getOidByOid requestedOid = some p)
    (hacc : (w.mibtab.at p).getAccessMode = AccessMode.READWRITE)
    (htype : (w.mibtab.at p).getPrimitiveType X = datatype) :
    (∀ v1, X.accept (w.mibtab.at p) value = Outcome.returned (some v1) →
      (snmp_set X w requestedOid datatype value).snmpValue = some value ∧
      (snmp_set X w requestedOid datatype value).calls
        = w.calls ++ [Call.setValue requestedOid value, Call.setenv "SNMP_VALUE" value,
            Call.fetchAndExec requestedOid EventMode.SET] ∧
      (snmp_set X w requestedOid datatype value).cout
        = w.cout ++ [requestedOid, datatype,
            X.printable (w.mibtab.at p).type
              (X.event (some value) (w.mibtab.store p ((w.mibtab.at p).withValue v1)).oids
              requestedOid EventMode.SET
                ((w.mibtab.at p).withValue v1))]) ∧
    (X.accept (w.mibtab.at p) value = Outcome.returned none →
      (snmp_set X w requestedOid datatype value).cout = w.cout ++ ["commit-failed"] ∧
      (snmp_set X w requestedOid datatype value).snmpValue = w.snmpValue ∧
      (snmp_set X w requestedOid datatype value).mibtab = w.mibtab ∧
      (snmp_set X w requestedOid datatype value).calls
        = w.calls ++ [Call.setValue requestedOid value]) := by
  constructor
  · intro v1 hv
    rw [snmp_set_committed X w requestedOid datatype value p v1 hfind hacc htype hv]
    simp
  · intro hv
    rw [snmp_set_commit_failed X w requestedOid datatype value p hfind hacc htype hv]
    simp

/-- An INTEGER entry accepts `42` and refuses `forty-two`. -/
theorem snmp_set_commit_witness :
    (snmp_set scenario (World.init [⟨"1.3.6.1.2", "INTEGER", "5", 2, "x"⟩])
        "1.3.6.1.2" "INTEGER" "42").cout = ["1.3.6.1.2", "INTEGER", "42"] ∧
    (snmp_set scenario (World.init [⟨"1.3.6.1.2", "INTEGER", "5", 2, "x"⟩])
        "1.3.6.1.2" "INTEGER" "forty-two").cout = ["commit-failed"] := by
  have h1 := (snmp_set_commit scenario (World.init [⟨"1.3.6.1.2", "INTEGER", "5", 2, "x"⟩])
    "1.3.6.1.2" "INTEGER" "42" 0 (by decide) (by decide) (by decide)).1 "42" (by decide)
  have h2 := (snmp_set_commit scenario (World.init [⟨"1.3.6.1.2", "INTEGER", "5", 2, "x"⟩])
    "1.3.6.1.2" "INTEGER" "forty-two" 0 (by decide) (by decide) (by decide)).2 (by decide)
  exact ⟨h1.2.2.trans (by decide), h2.1.trans (by decide)⟩


/-! ## SET on an absent OID -/

theorem find_last_of_dot_eq_none {cs : List Char} :
    find_last_of_dot cs = none ↔ '.' ∉ cs := by
  induction cs with
  | nil => simp [find_last_of_dot]
  | cons c cs ih =>
    simp only [find_last_of_dot]
    cases h : find_last_of_dot cs with
    | some i =>
      have : ¬ ('.' ∉ cs) := fun hn => by rw [ih.2 hn] at h; exact Option.noConfusion h
      simp only [List.mem_cons, not_or]
      constructor
      · intro h1; exact Option.noConfusion h1
      · intro h1; exact absurd h1.2 this
    | none =>
      have hcs := ih.1 h
      by_cases hc : c = '.'
      · simp [hc]
      · simp only [if_neg hc, List.mem_cons, not_or, true_iff]
        exact ⟨fun h1 => hc h1.symm, hcs⟩

/-- The position `find_last_of_dot` returns is that of a dot with no dot after it. -/
theorem find_last_of_dot_eq_some {cs : List Char} {i : Nat} (h : find_last_of_dot cs = some i) :
    ∃ rest, cs = cs.take i ++ '.' :: rest ∧ '.' ∉ rest := by
  induction cs generalizing i with
  | nil => simp [find_last_of_dot] at h
  | cons c cs ih =>
    simp only [find_last_of_dot] at h
    cases hf : find_last_of_dot cs with
    | some j =>
      rw [hf] at h
      simp only [Option.some.injEq] at h
      subst h
      obtain ⟨rest, h1, h2⟩ := ih hf
      refine ⟨rest, ?_, h2⟩
      simp only [List.take_succ_cons, List.cons_append, List.cons.injEq, true_and]
      exact h1
    | none =>
      rw [hf] at h
      by_cases hc : c = '.'
      · simp only [if_pos hc, Option.some.injEq] at h
        subst h
        exact ⟨cs, by simp [hc], find_last_of_dot_eq_none.1 hf⟩
      · simp [if_neg hc] at h

theorem isTableChild_iff (m : Mibtable) (parent : String) :
    m.isTableChild parent = true ↔
      ∃ p, m.getOidByOid parent = some p ∧ (m.at p).type = "SEQUENCE" := by
  unfold Mibtable.isTableChild
  cases h : m.getOidByOid parent with
  | none => simp
  | some p => simp [Oid.getType]

/-- Claim C7. A SET on an OID that is absent from the table is refused without any
other effect (the resulting state differs from the initial one in the line
written only, so `addOid` is not called, the table is unchanged and no SET event
runs): with `no-such-name` when the OID string has no dot, or when
`isTableChild(parent)` is false for the parent, the string before its last
dot, that is when the parent is absent or present but not a SEQUENCE; with
`read-only` when `isTableChild(parent)` holds but the parent is neither
READ_CREATE nor READ_WRITE. -/
theorem snmp_set_absent_refused (X : Collab) (w : World) (requestedOid datatype value : String)
    (habs : w.mibtab.getOidByOid requestedOid = none) :
    (find_last_of_dot requestedOid.data = none ↔ '.' ∉ requestedOid.data) ∧
    (∀ lastDotPos, find_last_of_dot requestedOid.data = some lastDotPos →
      ∃ rest, requestedOid.data = (substr0 requestedOid lastDotPos).data ++ '.' :: rest
        ∧ '.' ∉ rest) ∧
    (find_last_of_dot requestedOid.data = none →
      snmp_set X w requestedOid datatype value = w.println "no-such-name") ∧
    (∀ lastDotPos, find_last_of_dot requestedOid.data = some lastDotPos →
      w.mibtab.isTableChild (substr0 requestedOid lastDotPos) = false →
      snmp_set X w requestedOid datatype value = w.println "no-such-name") ∧
    (∀ parent, w.mibtab.isTableChild parent = false ↔
      (w.mibtab.getOidByOid parent = none ∨
        ∃ p, w.mibtab.getOidByOid parent = some p ∧ (w.mibtab.at p).type ≠ "SEQUENCE")) ∧
    (∀ lastDotPos p, find_last_of_dot requestedOid.data = some lastDotPos →
      w.mibtab.isTableChild (substr0 requestedOid lastDotPos) = true →
      w.mibtab.getOidByOid (substr0 requestedOid lastDotPos) = some p →
      (w.mibtab.at p).getAccessMode ≠ AccessMode.READCREATE →
      (w.mibtab.at p).getAccessMode ≠ AccessMode.READWRITE →
      snmp_set X w requestedOid datatype value = w.println "read-only") := by
  refine ⟨find_last_of_dot_eq_none, fun i hi => find_last_of_dot_eq_some hi, ?_, ?_, ?_, ?_⟩
  · intro hdot
    simp [snmp_set, habs, hdot]
  · intro i hdot htab
    simp [snmp_set, habs, hdot, htab]
  · intro parent
    unfold Mibtable.isTableChild
    cases h : w.mibtab.getOidByOid parent with
    | none => simp
    | some p => simp [Oid.getType]
  · intro i p hdot htab hpar h1 h2
    simp [snmp_set, habs, hdot, htab, hpar, h1, h2]

/-- The three refusals on concrete tables: an OID without a dot, a parent that is
not a SEQUENCE, and a READ_ONLY table parent. -/
theorem snmp_set_absent_refused_witness :
    snmp_set scenario (World.init []) "nodot" "INTEGER" "1"
      = (World.init []).println "no-such-name" ∧
    snmp_set scenario (World.init [⟨"1.3.6", "INTEGER", "5", 2, "x"⟩]) "1.3.6.1" "INTEGER" "1"
      = (World.init [⟨"1.3.6", "INTEGER", "5", 2, "x"⟩]).println "no-such-name" ∧
    snmp_set scenario (World.init [⟨"1.3.6", "SEQUENCE", "", 1, "x"⟩]) "1.3.6.1" "INTEGER" "1"
      = (World.init [⟨"1.3.6", "SEQUENCE", "", 1, "x"⟩]).println "read-only" :=
  ⟨(snmp_set_absent_refused scenario (World.init []) "nodot" "INTEGER" "1" (by decide)).2.2.1
      (by decide),
   (snmp_set_absent_refused scenario (World.init [⟨"1.3.6", "INTEGER", "5", 2, "x"⟩])
      "1.3.6.1" "INTEGER" "1" (by decide)).2.2.2.1 5 (by decide) (by decide),
   (snmp_set_absent_refused scenario (World.init [⟨"1.3.6", "SEQUENCE", "", 1, "x"⟩])
      "1.3.6.1" "INTEGER" "1" (by decide)).2.2.2.2.2 5 0 (by decide) (by decide) (by decide)
      (by decide) (by decide)⟩

/-! ## Row creation -/

theorem findOid_insertOrdered (o : Oid) (l : List Oid) (h : findOid l o.oid = none) :
    ∃ q, findOid (insertOrdered o l) o.oid = some q ∧ (insertOrdered o l).getD q default = o := by
  induction l with
  | nil => exact ⟨0, by simp [insertOrdered, findOid], by simp [insertOrdered]⟩
  | cons x t ih =>
    simp only [findOid] at h
    split at h
    · simp at h
    · rename_i hx
      have ht : findOid t o.oid = none := by
        cases hf : findOid t o.oid with
        | none => rfl
        | some q => simp [hf] at h
      obtain ⟨q, hq1, hq2⟩ := ih ht
      simp only [insertOrdered]
      split
      · exact ⟨0, by simp [findOid], by simp⟩
      · exact ⟨q + 1, by simp [findOid, hx, hq1], by simpa using hq2⟩

theorem findOid_mapValues (f : Oid → String) (l : List Oid) (s : String) :
    findOid (l.map (fun o => o.withValue (f o))) s = findOid l s := by
  induction l with
  | nil => rfl
  | cons x t ih => simp [findOid, ih]

@[simp]
theorem getOidByOid_mapValues (m : Mibtable) (f : Oid → String) (s : String) :
    (m.mapValues f).getOidByOid s = m.getOidByOid s :=
  findOid_mapValues f m.oids s

/-- After `addOid` has succeeded, `getOidByOid` finds the entry that was added. -/
theorem addOid_getOidByOid (X : Collab) (m t : Mibtable) (o : Oid)
    (h : m.addOid X o = some t) :
    ∃ q, t.getOidByOid o.oid = some q ∧ t.at q = o := by
  unfold Mibtable.addOid at h
  split at h
  · simp at h
  · rename_i habs
    split at h
    · simp at h
      subst h
      have hnone : findOid m.oids o.oid = none := by
        cases hf : findOid m.oids o.oid with
        | none => rfl
        | some q => simp [Mibtable.getOidByOid, hf] at habs
      exact findOid_insertOrdered o m.oids hnone
    · simp at h

/-- On an absent OID `addOid` succeeds exactly when storage accepts the row. -/
theorem addOid_isSome_iff (X : Collab) (m : Mibtable) (o : Oid)
    (habs : m.getOidByOid o.oid = none) :
    (m.addOid X o).isSome = X.persist o := by
  unfold Mibtable.addOid
  simp [habs]
  cases X.persist o <;> simp

/-- The state `snmp_set` reaches on the row-creation path when `addOid` returns
the table `t`. -/
theorem snmp_set_created (X : Collab) (w : World) (requestedOid datatype value : String)
    (lastDotPos p : Nat) (t : Mibtable)
    (habs : w.mibtab.getOidByOid requestedOid = none)
    (hdot : find_last_of_dot requestedOid.data = some lastDotPos)
    (hpar : w.mibtab.getOidByOid (substr0 requestedOid lastDotPos) = some p)
    (hseq : (w.mibtab.at p).type = "SEQUENCE")
    (hacc : (w.mibtab.at p).getAccessMode = AccessMode.READCREATE
      ∨ (w.mibtab.at p).getAccessMode = AccessMode.READWRITE)
    (hadd : w.mibtab.addOid X
      (Oid.mk requestedOid (w.mibtab.at p).type value 3 (w.mibtab.at p).name) = some t) :
    snmp_set X w requestedOid datatype value
      = fetchAndExec X (setenv
          (((((w.record (Call.addOid
            (Oid.mk requestedOid (w.mibtab.at p).type value 3 (w.mibtab.at p).name))).withTable
              t).println requestedOid).println
                (X.primitiveType (w.mibtab.at p).type)).println
                  (X.printable (w.mibtab.at p).type value)) value)
          (substr0 requestedOid lastDotPos) EventMode.SET := by
  have htab : w.mibtab.isTableChild (substr0 requestedOid lastDotPos) = true :=
    (isTableChild_iff _ _).2 ⟨p, hpar, hseq⟩
  have hcond : ¬ ((w.mibtab.at p).getAccessMode ≠ AccessMode.READCREATE
      ∧ (w.mibtab.at p).getAccessMode ≠ AccessMode.READWRITE) := by
    rcases hacc with h | h <;> simp [h]
  simp only [snmp_set, habs, hdot, htab, hpar, if_true, hcond, if_false, record_mibtab,
    Oid.getType, Oid.getName, hadd, Oid.getOid, Oid.getPrimitiveType, Oid.getPrintableValue]

/-- The state `snmp_set` reaches on the row-creation path when `addOid` fails. -/
theorem snmp_set_not_created (X : Collab) (w : World) (requestedOid datatype value : String)
    (lastDotPos p : Nat)
    (habs : w.mibtab.getOidByOid requestedOid = none)
    (hdot : find_last_of_dot requestedOid.data = some lastDotPos)
    (hpar : w.mibtab.getOidByOid (substr0 requestedOid lastDotPos) = some p)
    (hseq : (w.mibtab.at p).type = "SEQUENCE")
    (hacc : (w.mibtab.at p).getAccessMode = AccessMode.READCREATE
      ∨ (w.mibtab.at p).getAccessMode = AccessMode.READWRITE)
    (hadd : w.mibtab.addOid X
      (Oid.mk requestedOid (w.mibtab.at p).type value 3 (w.mibtab.at p).name) = none) :
    snmp_set X w requestedOid datatype value
      = (w.record (Call.addOid
          (Oid.mk requestedOid (w.mibtab.at p).type value 3 (w.mibtab.at p).name))).println
          "commit-failed" := by
  have htab : w.mibtab.isTableChild (substr0 requestedOid lastDotPos) = true :=
    (isTableChild_iff _ _).2 ⟨p, hpar, hseq⟩
  have hcond : ¬ ((w.mibtab.at p).getAccessMode ≠ AccessMode.READCREATE
      ∧ (w.mibtab.at p).getAccessMode ≠ AccessMode.READWRITE) := by
    rcases hacc with h | h <;> simp [h]
  simp only [snmp_set, habs, hdot, htab, hpar, if_true, hcond, if_false, record_mibtab,
    Oid.getType, Oid.getName, hadd]


/-- Claim C8. On the row-creation path (OID absent, parent a SEQUENCE table parent
with access READ_CREATE or READ_WRITE): if `addOid` succeeds, `SNMP_VALUE` is
set to the incoming value and the calls made are `addOid`, `setenv` and one
single `fetchAndExec`, on the parent OID in mode SET; the parent differs from
the new child, so no event runs on the child.  If `addOid` fails, the single
line `commit-failed` is written, no event runs, and the table and `SNMP_VALUE`
are unchanged. -/
theorem snmp_set_row_creation_event (X : Collab) (w : World)
    (requestedOid datatype value : String) (lastDotPos p : Nat)
    (habs : w.mibtab.getOidByOid requestedOid = none)
    (hdot : find_last_of_dot requestedOid.data = some lastDotPos)
    (hpar : w.mibtab.getOidByOid (substr0 requestedOid lastDotPos) = some p)
    (hseq : (w.mibtab.at p).type = "SEQUENCE")
    (hacc : (w.mibtab.at p).getAccessMode = AccessMode.READCREATE
      ∨ (w.mibtab.at p).getAccessMode = AccessMode.READWRITE) :
    (∀ t, w.mibtab.addOid X
        (Oid.mk requestedOid (w.mibtab.at p).type value 3 (w.mibtab.at p).name) = some t →
      (snmp_set X w requestedOid datatype value).snmpValue = some value ∧
      (snmp_set X w requestedOid datatype value).calls
        = w.calls ++ [Call.addOid
              (Oid.mk requestedOid (w.mibtab.at p).type value 3 (w.mibtab.at p).name),
            Call.setenv "SNMP_VALUE" value,
            Call.fetchAndExec (substr0 requestedOid lastDotPos) EventMode.SET] ∧
      substr0 requestedOid lastDotPos ≠ requestedOid) ∧
    (w.mibtab.addOid X
        (Oid.mk requestedOid (w.mibtab.at p).type value 3 (w.mibtab.at p).name) = none →
      (snmp_set X w requestedOid datatype value).cout = w.cout ++ ["commit-failed"] ∧
      (snmp_set X w requestedOid datatype value).calls
        = w.calls ++ [Call.addOid
              (Oid.mk requestedOid (w.mibtab.at p).type value 3 (w.mibtab.at p).name)] ∧
      (snmp_set X w requestedOid datatype value).mibtab = w.mibtab ∧
      (snmp_set X w requestedOid datatype value).snmpValue = w.snmpValue) := by
  constructor
  · intro t hadd
    rw [snmp_set_created X w requestedOid datatype value lastDotPos p t habs hdot hpar hseq
      hacc hadd]
    refine ⟨by simp, by simp, ?_⟩
    intro heq
    rw [heq, habs] at hpar
    exact Option.noConfusion hpar
  · intro hadd
    rw [snmp_set_not_created X w requestedOid datatype value lastDotPos p habs hdot hpar hseq
      hacc hadd]
    simp

/-- Row creation under a READ_CREATE table parent, with storage accepting and
refusing the row. -/
theorem snmp_set_row_creation_event_witness :
    (snmp_set scenario (World.init [⟨"1.3.6", "SEQUENCE", "", 3, "tab"⟩])
        "1.3.6.7" "INTEGER" "17").calls
      = [Call.addOid ⟨"1.3.6.7", "SEQUENCE", "17", 3, "tab"⟩, Call.setenv "SNMP_VALUE" "17",
          Call.fetchAndExec "1.3.6" EventMode.SET] ∧
    (snmp_set scenarioStorageDown (World.init [⟨"1.3.6", "SEQUENCE", "", 3, "tab"⟩])
        "1.3.6.7" "INTEGER" "17").cout = ["commit-failed"] := by
  have h1 := (snmp_set_row_creation_event scenario
    (World.init [⟨"1.3.6", "SEQUENCE", "", 3, "tab"⟩]) "1.3.6.7" "INTEGER" "17" 5 0
    (by decide) (by decide) (by decide) (by decide) (by decide)).1
    ⟨[⟨"1.3.6", "SEQUENCE", "", 3, "tab"⟩, ⟨"1.3.6.7", "SEQUENCE", "17", 3, "tab"⟩]⟩ (by decide)
  have h2 := (snmp_set_row_creation_event scenarioStorageDown
    (World.init [⟨"1.3.6", "SEQUENCE", "", 3, "tab"⟩]) "1.3.6.7" "INTEGER" "17" 5 0
    (by decide) (by decide) (by decide) (by decide) (by decide)).2 (by decide)
  exact ⟨h1.2.1.trans (by decide), h2.1.trans (by decide)⟩

/-- Claim C2. On the row-creation path (OID `X.n` absent, `X` a SEQUENCE table parent
with access READ_CREATE or READ_WRITE) the first call `snmp_set` makes is
`addOid` on a new OID with identifier `X.n`, the type and the name of `X`,
access mode READ_CREATE (numeric 3) whatever the access mode of `X`, and the
SET payload as value.  When `addOid` succeeds, `getOidByOid(X.n)` finds that
OID in the table `addOid` returns, and in the table `snmp_set` leaves, where
only the SET event may have given it another value. -/
theorem snmp_set_row_creation_child (X : Collab) (w : World)
    (requestedOid datatype value : String) (lastDotPos p : Nat)
    (habs : w.mibtab.getOidByOid requestedOid = none)
    (hdot : find_last_of_dot requestedOid.data = some lastDotPos)
    (hpar : w.mibtab.getOidByOid (substr0 requestedOid lastDotPos) = some p)
    (hseq : (w.mibtab.at p).type = "SEQUENCE")
    (hacc : (w.mibtab.at p).getAccessMode = AccessMode.READCREATE
      ∨ (w.mibtab.at p).getAccessMode = AccessMode.READWRITE) :
    (∃ rest, (snmp_set X w requestedOid datatype value).calls
      = w.calls ++ Call.addOid (Oid.mk requestedOid (w.mibtab.at p).getType value AccessMode.READCREATE
            (w.mibtab.at p).getName) :: rest) ∧
    AccessMode.READCREATE = 3 ∧
    (∀ t, w.mibtab.addOid X (Oid.mk requestedOid (w.mibtab.at p).getType value AccessMode.READCREATE
            (w.mibtab.at p).getName) = some t →
      (∃ q, t.getOidByOid requestedOid = some q ∧
        t.at q = (Oid.mk requestedOid (w.mibtab.at p).getType value AccessMode.READCREATE
            (w.mibtab.at p).getName)) ∧
      (∃ q, (snmp_set X w requestedOid datatype value).mibtab.getOidByOid requestedOid = some q ∧
        (snmp_set X w requestedOid datatype value).mibtab.at q
          = Oid.mk requestedOid (w.mibtab.at p).getType
              (X.event (some value) t.oids (substr0 requestedOid lastDotPos) EventMode.SET
                (Oid.mk requestedOid (w.mibtab.at p).getType value AccessMode.READCREATE
            (w.mibtab.at p).getName))
              AccessMode.READCREATE (w.mibtab.at p).getName)) := by
  refine ⟨?_, rfl, ?_⟩
  · cases hadd : w.mibtab.addOid X
        (Oid.mk requestedOid (w.mibtab.at p).type value 3 (w.mibtab.at p).name) with
    | none =>
      rw [snmp_set_not_created X w requestedOid datatype value lastDotPos p habs hdot hpar hseq
        hacc hadd]
      exact ⟨[], by simp [Oid.getType, Oid.getName, AccessMode.READCREATE]⟩
    | some t =>
      rw [snmp_set_created X w requestedOid datatype value lastDotPos p t habs hdot hpar hseq
        hacc hadd]
      exact ⟨[Call.setenv "SNMP_VALUE" value,
        Call.fetchAndExec (substr0 requestedOid lastDotPos) EventMode.SET],
        by simp [Oid.getType, Oid.getName, AccessMode.READCREATE]⟩
  · intro t hadd
    have hadd1 : w.mibtab.addOid X
        (Oid.mk requestedOid (w.mibtab.at p).type value 3 (w.mibtab.at p).name) = some t := hadd
    obtain ⟨q, hq1, hq2⟩ := addOid_getOidByOid X w.mibtab t _ hadd1
    refine ⟨⟨q, hq1, hq2⟩, q, ?_, ?_⟩
    · rw [snmp_set_created X w requestedOid datatype value lastDotPos p t habs hdot hpar hseq
        hacc hadd1]
      simpa using hq1
    · rw [snmp_set_created X w requestedOid datatype value lastDotPos p t habs hdot hpar hseq
        hacc hadd1]
      have hlt : q < t.oids.length := getOidByOid_lt hq1
      simp only [fetchAndExec_mibtab, setenv_mibtab, println_mibtab, withTable_mibtab,
        setenv_snmpValue, mapValues_at _ _ _ hlt, hq2]
      rfl

/-- Row creation under a READ_WRITE table parent: the new row is READ_CREATE all
the same. -/
theorem snmp_set_row_creation_child_witness :
    (snmp_set scenario (World.init [⟨"1.3.6", "SEQUENCE", "", 2, "tab"⟩])
        "1.3.6.7" "INTEGER" "17").mibtab.getOidByOid "1.3.6.7" = some 1 ∧
    (snmp_set scenario (World.init [⟨"1.3.6", "SEQUENCE", "", 2, "tab"⟩])
        "1.3.6.7" "INTEGER" "17").mibtab.at 1 = ⟨"1.3.6.7", "SEQUENCE", "17", 3, "tab"⟩ := by
  obtain ⟨q, hq1, hq2⟩ := ((snmp_set_row_creation_child scenario
    (World.init [⟨"1.3.6", "SEQUENCE", "", 2, "tab"⟩]) "1.3.6.7" "INTEGER" "17" 5 0
    (by decide) (by decide) (by decide) (by decide) (by decide)).2.2
    ⟨[⟨"1.3.6", "SEQUENCE", "", 2, "tab"⟩, ⟨"1.3.6.7", "SEQUENCE", "17", 3, "tab"⟩]⟩
    (by decide)).2
  have hq : q = 1 := by
    have h1 : (snmp_set scenario (World.init [⟨"1.3.6", "SEQUENCE", "", 2, "tab"⟩])
        "1.3.6.7" "INTEGER" "17").mibtab.getOidByOid "1.3.6.7" = some 1 := by decide
    rw [h1] at hq1
    exact (Option.some.inj hq1).symm
  subst hq
  exact ⟨hq1, hq2.trans (by decide)⟩


/-- Scenario 4 of the specification run on the code: the row is created with the
type of its SEQUENCE parent, so the reply is not `COUNTER32` / `17` and the new
OID is not of type `COUNTER32` (claim C3 as stated fails). -/
theorem snmp_set_row_creation_ignores_datatype :
    (snmp_set scenario (World.init [⟨"1.3.6.1.2.1.2.2.1.10", "SEQUENCE", "", 3, "ifInOctets"⟩])
        "1.3.6.1.2.1.2.2.1.10.3" "COUNTER32" "17").cout
      = ["1.3.6.1.2.1.2.2.1.10.3", "SEQUENCE", ""] ∧
    (snmp_set scenario (World.init [⟨"1.3.6.1.2.1.2.2.1.10", "SEQUENCE", "", 3, "ifInOctets"⟩])
        "1.3.6.1.2.1.2.2.1.10.3" "COUNTER32" "17").cout
      ≠ ["1.3.6.1.2.1.2.2.1.10.3", "COUNTER32", "17"] ∧
    (snmp_set scenario (World.init [⟨"1.3.6.1.2.1.2.2.1.10", "SEQUENCE", "", 3, "ifInOctets"⟩])
        "1.3.6.1.2.1.2.2.1.10.3" "COUNTER32" "17").mibtab.getOidByOid "1.3.6.1.2.1.2.2.1.10.3"
      = some 1 ∧
    ((snmp_set scenario (World.init [⟨"1.3.6.1.2.1.2.2.1.10", "SEQUENCE", "", 3, "ifInOctets"⟩])
        "1.3.6.1.2.1.2.2.1.10.3" "COUNTER32" "17").mibtab.at 1).type = "SEQUENCE" ∧
    ((snmp_set scenario (World.init [⟨"1.3.6.1.2.1.2.2.1.10", "SEQUENCE", "", 3, "ifInOctets"⟩])
        "1.3.6.1.2.1.2.2.1.10.3" "COUNTER32" "17").mibtab.at 1).type ≠ "COUNTER32" := by
  decide

/-- Claim C3, amended. For a SET request `T v` on an absent OID `X.n` whose parent `X`
is a SEQUENCE-typed OID with access READ_CREATE, when `addOid` succeeds: the
reply is the three lines `X.n`, the type tag of a SEQUENCE and the printable
form a SEQUENCE gives to `v`; the type tag `T` of the request plays no part.  In
the post-state the new OID `X.n` has access READ_CREATE, the type of `X`, which
is SEQUENCE, and the name of `X`. -/
theorem snmp_set_row_creation_reply (X : Collab) (w : World)
    (requestedOid datatype value : String) (lastDotPos p : Nat) (t : Mibtable)
    (habs : w.mibtab.getOidByOid requestedOid = none)
    (hdot : find_last_of_dot requestedOid.data = some lastDotPos)
    (hpar : w.mibtab.getOidByOid (substr0 requestedOid lastDotPos) = some p)
    (hseq : (w.mibtab.at p).type = "SEQUENCE")
    (hacc : (w.mibtab.at p).getAccessMode = AccessMode.READCREATE)
    (hadd : w.mibtab.addOid X
      (Oid.mk requestedOid (w.mibtab.at p).type value 3 (w.mibtab.at p).name) = some t) :
    (snmp_set X w requestedOid datatype value).cout
      = w.cout ++ [requestedOid, X.primitiveType "SEQUENCE", X.printable "SEQUENCE" value] ∧
    (∀ T, snmp_set X w requestedOid T value = snmp_set X w requestedOid datatype value) ∧
    ∃ q, (snmp_set X w requestedOid datatype value).mibtab.getOidByOid requestedOid = some q ∧
      ((snmp_set X w requestedOid datatype value).mibtab.at q).getAccessMode
        = AccessMode.READCREATE ∧
      ((snmp_set X w requestedOid datatype value).mibtab.at q).getType = "SEQUENCE" ∧
      ((snmp_set X w requestedOid datatype value).mibtab.at q).getName = (w.mibtab.at p).getName := by
  have hw := snmp_set_created X w requestedOid datatype value lastDotPos p t habs hdot hpar hseq
    (Or.inl hacc) hadd
  refine ⟨?_, ?_, ?_⟩
  · rw [hw]
    simp [hseq]
  · intro T
    rw [hw, snmp_set_created X w requestedOid T value lastDotPos p t habs hdot hpar hseq
      (Or.inl hacc) hadd]
  · obtain ⟨q, hq1, hq2⟩ := addOid_getOidByOid X w.mibtab t _ hadd
    have hlt : q < t.oids.length := getOidByOid_lt hq1
    refine ⟨q, ?_, ?_, ?_, ?_⟩
    · rw [hw]
      simpa using hq1
    · rw [hw]
      simp only [fetchAndExec_mibtab, setenv_mibtab, println_mibtab, withTable_mibtab,
        mapValues_at _ _ _ hlt, hq2, Oid.getAccessMode, withValue_accessMode]
      rfl
    · rw [hw]
      simp only [fetchAndExec_mibtab, setenv_mibtab, println_mibtab, withTable_mibtab,
        mapValues_at _ _ _ hlt, hq2, Oid.getType, withValue_type, hseq]
    · rw [hw]
      simp only [fetchAndExec_mibtab, setenv_mibtab, println_mibtab, withTable_mibtab,
        mapValues_at _ _ _ hlt, hq2, Oid.getName, withValue_name]

/-- Scenario 4 of the specification: the reply carries the tag and the printable
form of a SEQUENCE. -/
theorem snmp_set_row_creation_reply_witness :
    (snmp_set scenario (World.init [⟨"1.3.6.1.2.1.2.2.1.10", "SEQUENCE", "", 3, "ifInOctets"⟩])
        "1.3.6.1.2.1.2.2.1.10.3" "COUNTER32" "17").cout
      = ["1.3.6.1.2.1.2.2.1.10.3", "SEQUENCE", ""] :=
  (snmp_set_row_creation_reply scenario
    (World.init [⟨"1.3.6.1.2.1.2.2.1.10", "SEQUENCE", "", 3, "ifInOctets"⟩])
    "1.3.6.1.2.1.2.2.1.10.3" "COUNTER32" "17" 20 0
    ⟨[⟨"1.3.6.1.2.1.2.2.1.10", "SEQUENCE", "", 3, "ifInOctets"⟩,
      ⟨"1.3.6.1.2.1.2.2.1.10.3", "SEQUENCE", "17", 3, "ifInOctets"⟩]⟩
    (by decide) (by decide) (by decide) (by decide) (by decide) (by decide)).1.trans (by decide)

/-! ## The daemon's `set` branch -/

/-- Claim C4. A SET request read by the daemon loop for an existing READ_WRITE OID, with
the parameter line split at its first space into datatype `d` and value and
`d` upper-cased before `snmp_set` is called: if the upper-cased `d` differs from
the type tag, the reply is the single line `wrong-type` and nothing else
happens (no `setValue`, no SET event, value unchanged); if it equals the tag,
the reply is not `wrong-type`. -/
theorem daemon_set_wrong_type (X : Collab) (w : World) (requestedOid setParams : String)
    (p sepPos : Nat)
    (hfind : w.mibtab.getOidByOid requestedOid = some p)
    (hacc : (w.mibtab.at p).getAccessMode = AccessMode.READWRITE)
    (hsep : find_space setParams.data = some sepPos) :
    (toupper (substr0 setParams sepPos) ≠ (w.mibtab.at p).getPrimitiveType X →
      daemon_set X w requestedOid setParams = w.println "wrong-type" ∧
      (daemon_set X w requestedOid setParams).cout = w.cout ++ ["wrong-type"] ∧
      (daemon_set X w requestedOid setParams).calls = w.calls ∧
      (daemon_set X w requestedOid setParams).mibtab = w.mibtab) ∧
    (toupper (substr0 setParams sepPos) = (w.mibtab.at p).getPrimitiveType X →
      (daemon_set X w requestedOid setParams).cout ≠ w.cout ++ ["wrong-type"]) := by
  constructor
  · intro hne
    have h : daemon_set X w requestedOid setParams = w.println "wrong-type" := by
      simp [daemon_set, hsep, snmp_set, hfind, hacc, Ne.symm hne]
    simp [h]
  · intro heq
    have hs : daemon_set X w requestedOid setParams
        = snmp_set X w requestedOid ((w.mibtab.at p).getPrimitiveType X)
            (substrFrom setParams (sepPos + 1)) := by
      simp [daemon_set, hsep, heq]
    rw [hs]
    cases hv : X.accept (w.mibtab.at p) (substrFrom setParams (sepPos + 1)) with
    | thrown e =>
      rw [snmp_set_uncaught X w requestedOid _ _ p e hfind hacc rfl hv]
      simp
    | returned r =>
      cases r with
      | none =>
        rw [snmp_set_commit_failed X w requestedOid _ _ p hfind hacc rfl hv]
        simp
      | some v1 =>
        rw [snmp_set_committed X w requestedOid _ _ p v1 hfind hacc rfl hv]
        simp

/-- Scenario 3 of the specification, and a datatype that differs from the tag in
letter case only. -/
theorem daemon_set_wrong_type_witness :
    (daemon_set scenario (World.init [⟨"1.3.6.1.2.1.1.1.0", "OCTET STRING", "foo", 2, "sysDescr"⟩])
        "1.3.6.1.2.1.1.1.0" "INTEGER 42").cout = ["wrong-type"] ∧
    (daemon_set scenario (World.init [⟨"1.3.6.1.2.1.1.1.0", "OCTET STRING", "foo", 2, "sysDescr"⟩])
        "1.3.6.1.2.1.1.1.0" "INTEGER 42").mibtab
      = ⟨[⟨"1.3.6.1.2.1.1.1.0", "OCTET STRING", "foo", 2, "sysDescr"⟩]⟩ ∧
    (daemon_set scenario (World.init [⟨"1.3.6.1.2", "INTEGER", "5", 2, "x"⟩])
        "1.3.6.1.2" "Integer 42").cout ≠ ["wrong-type"] := by
  have h1 := (daemon_set_wrong_type scenario
    (World.init [⟨"1.3.6.1.2.1.1.1.0", "OCTET STRING", "foo", 2, "sysDescr"⟩])
    "1.3.6.1.2.1.1.1.0" "INTEGER 42" 0 7 (by decide) (by decide) (by decide)).1 (by decide)
  have h2 := (daemon_set_wrong_type scenario (World.init [⟨"1.3.6.1.2", "INTEGER", "5", 2, "x"⟩])
    "1.3.6.1.2" "Integer 42" 0 7 (by decide) (by decide) (by decide)).2 (by decide)
  exact ⟨h1.2.1.trans (by decide), h1.2.2.2.trans (by decide), h2⟩


/-! ## The order on OIDs -/

theorem lexLt_irrefl (a : List Nat) : lexLt a a = false := by
  induction a with
  | nil => rfl
  | cons x t ih => simp [lexLt, ih]

theorem lexLt_trans {a b c : List Nat} (h1 : lexLt a b = true) (h2 : lexLt b c = true) :
    lexLt a c = true := by
  induction a generalizing b c with
  | nil =>
    cases c with
    | nil => cases b <;> simp [lexLt] at h2
    | cons z c => simp [lexLt]
  | cons x a ih =>
    cases b with
    | nil => simp [lexLt] at h1
    | cons y b =>
      cases c with
      | nil => simp [lexLt] at h2
      | cons z c =>
        simp only [lexLt, Bool.or_eq_true, decide_eq_true_eq, Bool.and_eq_true] at h1 h2 ⊢
        rcases h1 with h1 | ⟨h1, h1r⟩
        · rcases h2 with h2 | ⟨h2, _⟩
          · left; omega
          · left; omega
        · rcases h2 with h2 | ⟨h2, h2r⟩
          · left; omega
          · right; exact ⟨by omega, ih h1r h2r⟩

theorem lexLt_trichotomy (a b : List Nat) : lexLt a b = true ∨ a = b ∨ lexLt b a = true := by
  induction a generalizing b with
  | nil =>
    cases b with
    | nil => simp
    | cons y b => simp [lexLt]
  | cons x a ih =>
    cases b with
    | nil => simp [lexLt]
    | cons y b =>
      simp only [lexLt, Bool.or_eq_true, decide_eq_true_eq, Bool.and_eq_true, List.cons.injEq]
      rcases Nat.lt_trichotomy x y with h | h | h
      · left; left; exact h
      · rcases ih b with h1 | h1 | h1
        · left; right; exact ⟨h, h1⟩
        · right; left; exact ⟨h, h1⟩
        · right; right; right; exact ⟨h.symm, h1⟩
      · right; right; left; exact h

theorem oidLt_irrefl (a : String) : oidLt a a = false := lexLt_irrefl _

theorem oidLt_trans {a b c : String} (h1 : oidLt a b = true) (h2 : oidLt b c = true) :
    oidLt a c = true := lexLt_trans h1 h2

theorem oidLt_asymm {a b : String} (h : oidLt a b = true) : oidLt b a = false := by
  cases hba : oidLt b a with
  | false => rfl
  | true =>
    have := oidLt_trans h hba
    rw [oidLt_irrefl] at this
    exact Bool.noConfusion this

/-- Two strings that the order does not separate have the same components. -/
theorem components_eq_of_not_lt {a b : String} (h1 : oidLt a b = false) (h2 : oidLt b a = false) :
    components a = components b := by
  rcases lexLt_trichotomy (components a) (components b) with h | h | h
  · rw [oidLt] at h1; rw [h1] at h; exact Bool.noConfusion h
  · exact h
  · rw [oidLt] at h2; rw [h2] at h; exact Bool.noConfusion h

theorem oidLt_congr_right {a b c : String} (h : components b = components c) :
    oidLt a b = oidLt a c := by
  simp [oidLt, h]

/-- What is not below `b` is not below anything that is not above `b`. -/
theorem oidLt_false_trans {a b c : String} (h1 : oidLt a b = false) (h2 : oidLt b c = false) :
    oidLt a c = false := by
  cases hac : oidLt a c with
  | false => rfl
  | true =>
    rcases lexLt_trichotomy (components a) (components b) with h | h | h
    · rw [oidLt] at h1; rw [h1] at h; exact Bool.noConfusion h
    · have : oidLt b c = true := by simpa [oidLt, h] using hac
      rw [h2] at this; exact Bool.noConfusion this
    · have : oidLt b c = true := lexLt_trans h hac
      rw [h2] at this; exact Bool.noConfusion this

theorem splitDots_ne_nil (cs : List Char) : splitDots cs ≠ [] := by
  cases cs with
  | nil => simp [splitDots]
  | cons c cs =>
    simp only [splitDots]
    split
    · simp
    · split <;> simp

/-- Nothing is smaller than the empty string, the "no successor" answer of
`getNextOid`. -/
theorem oidLt_empty (a : String) : oidLt a "" = false := by
  have hc : components "" = [0] := by decide
  rw [oidLt, hc]
  cases h : components a with
  | nil =>
    simp [components] at h
    exact absurd h (splitDots_ne_nil _)
  | cons x t =>
    cases t <;> simp [lexLt]

/-! ## The successor -/

/-- Characterisation of the scan that `getNextOid` performs. -/
theorem foldl_nextStep (s : String) (l : List Oid) (best : Option String) :
    match l.foldl (nextStep s) best with
    | none => best = none ∧ ∀ o ∈ l, oidLt s o.oid = false
    | some n =>
      (best = some n ∨ ∃ o ∈ l, o.oid = n ∧ oidLt s n = true) ∧
      (∀ b, best = some b → oidLt b n = false) ∧
      (∀ o ∈ l, oidLt s o.oid = true → oidLt o.oid n = false) := by
  induction l generalizing best with
  | nil =>
    cases best with
    | none => simp
    | some b => simp [oidLt_irrefl]
  | cons x t ih =>
    have hx := ih (nextStep s best x)
    simp only [List.foldl_cons]
    cases hres : List.foldl (nextStep s) (nextStep s best x) t with
    | none =>
      rw [hres] at hx
      obtain ⟨hb, ht⟩ := hx
      simp only [nextStep] at hb
      by_cases hsx : oidLt s x.oid = true
      · rw [if_pos hsx] at hb
        cases best <;> simp at hb
        split at hb <;> simp at hb
      · rw [if_neg hsx] at hb
        refine ⟨hb, ?_⟩
        intro o ho
        rcases List.mem_cons.1 ho with h | h
        · subst h; simpa using hsx
        · exact ht o h
    | some n =>
      rw [hres] at hx
      obtain ⟨h1, h2, h3⟩ := hx
      simp only [nextStep] at h1 h2
      by_cases hsx : oidLt s x.oid = true
      · simp only [if_pos hsx] at h1 h2
        cases best with
        | none =>
          simp only [Option.some.injEq] at h1 h2
          have hxn : oidLt x.oid n = false := h2 x.oid rfl
          refine ⟨Or.inr ?_, by simp, ?_⟩
          · rcases h1 with h | ⟨o, ho, hon, hsn⟩
            · exact ⟨x, List.mem_cons_self _ _, h, h ▸ hsx⟩
            · exact ⟨o, List.mem_cons_of_mem _ ho, hon, hsn⟩
          · intro o ho hso
            rcases List.mem_cons.1 ho with h | h
            · subst h; exact hxn
            · exact h3 o h hso
        | some b =>
          by_cases hxb : oidLt x.oid b = true
          · simp only [if_pos hxb, Option.some.injEq] at h1 h2
            have hxn : oidLt x.oid n = false := h2 x.oid rfl
            refine ⟨Or.inr ?_, ?_, ?_⟩
            · rcases h1 with h | ⟨o, ho, hon, hsn⟩
              · exact ⟨x, List.mem_cons_self _ _, h, h ▸ hsx⟩
              · exact ⟨o, List.mem_cons_of_mem _ ho, hon, hsn⟩
            · intro b1 hb1
              simp only [Option.some.injEq] at hb1
              subst hb1
              exact oidLt_false_trans (oidLt_asymm hxb) hxn
            · intro o ho hso
              rcases List.mem_cons.1 ho with h | h
              · subst h; exact hxn
              · exact h3 o h hso
          · simp only [if_neg hxb, Option.some.injEq] at h1 h2
            have hbn : oidLt b n = false := h2 b rfl
            refine ⟨?_, ?_, ?_⟩
            · rcases h1 with h | ⟨o, ho, hon, hsn⟩
              · exact Or.inl (by rw [h])
              · exact Or.inr ⟨o, List.mem_cons_of_mem _ ho, hon, hsn⟩
            · intro b1 hb1
              simp only [Option.some.injEq] at hb1
              subst hb1
              exact hbn
            · intro o ho hso
              rcases List.mem_cons.1 ho with h | h
              · subst h
                exact oidLt_false_trans (by simpa using hxb) hbn
              · exact h3 o h hso
      · simp only [if_neg hsx] at h1 h2
        refine ⟨?_, h2, ?_⟩
        · rcases h1 with h | ⟨o, ho, hon, hsn⟩
          · exact Or.inl h
          · exact Or.inr ⟨o, List.mem_cons_of_mem _ ho, hon, hsn⟩
        · intro o ho hso
          rcases List.mem_cons.1 ho with h | h
          · subst h; exact absurd hso hsx
          · exact h3 o h hso

/-- Without an entry above `s`, `getNextOid` answers the empty string. -/
theorem getNextOid_eq_empty {m : Mibtable} {s : String}
    (h : m.oids.foldl (nextStep s) none = none) :
    m.getNextOid s = "" ∧ ∀ o ∈ m.oids, oidLt s o.oid = false := by
  have := foldl_nextStep s m.oids none
  rw [h] at this
  exact ⟨by simp [Mibtable.getNextOid, h], this.2⟩

/-- Otherwise `getNextOid` answers the identifier of a smallest entry above `s`. -/
theorem getNextOid_eq_some {m : Mibtable} {s n : String}
    (h : m.oids.foldl (nextStep s) none = some n) :
    m.getNextOid s = n ∧ (∃ o ∈ m.oids, o.oid = n) ∧ oidLt s n = true ∧
      ∀ o ∈ m.oids, oidLt s o.oid = true → oidLt o.oid n = false := by
  have := foldl_nextStep s m.oids none
  rw [h] at this
  obtain ⟨h1, _, h3⟩ := this
  rcases h1 with h1 | ⟨o, ho, hon, hsn⟩
  · exact Option.noConfusion h1
  · exact ⟨by simp [Mibtable.getNextOid, h], ⟨o, ho, hon⟩, hsn, h3⟩


/-! ## GETNEXT -/

theorem countP_lt_countP {p q : Oid → Bool} {l : List Oid} (hpq : ∀ x ∈ l, p x = true → q x = true)
    {c : Oid} (hc : c ∈ l) (hqc : q c = true) (hpc : p c = false) :
    l.countP p < l.countP q := by
  induction l with
  | nil => simp at hc
  | cons x t ih =>
    have hmono : t.countP p ≤ t.countP q :=
      List.countP_mono_left (fun y hy => hpq y (List.mem_cons_of_mem _ hy))
    rcases List.mem_cons.1 hc with h | h
    · subst h
      rw [List.countP_cons_of_pos (p := q) t hqc, List.countP_cons_of_neg (p := p) t (by simp [hpc])]
      omega
    · have := ih (fun y hy => hpq y (List.mem_cons_of_mem _ hy)) h
      rw [List.countP_cons, List.countP_cons]
      by_cases hpx : p x = true
      · have hqx := hpq x (List.mem_cons_self _ _) hpx
        simp [hpx, hqx]; omega
      · simp [hpx]
        split <;> omega

/-- Moving to a successor leaves strictly fewer entries above. -/
theorem above_lt {m : Mibtable} {cur : String} {c : Oid} (hc : c ∈ m.oids)
    (hlt : oidLt cur c.oid = true) : m.above c.oid < m.above cur := by
  unfold Mibtable.above
  refine countP_lt_countP ?_ hc (by simpa using hlt) (by simpa using oidLt_irrefl c.oid)
  intro x _ hx
  simp only [] at hx ⊢
  exact oidLt_trans hlt hx

theorem above_le_length (m : Mibtable) (s : String) : m.above s ≤ m.oids.length :=
  List.countP_le_length _

/-- The loop of `snmp_getnext`, started at `cur` with every entry between the
requested OID and `cur` NOT_ACCESSIBLE and enough fuel, returns: it has
written the frame of the smallest accessible entry after the requested OID, or
`no-such-name` when there is none, and `visited` lists the arguments of its
calls to `getNextOid`. -/
theorem snmp_getnext_loop_spec (X : Collab) (requestedOid : String) :
    ∀ (fuel : Nat) (w : World) (cur : String),
      w.mibtab.uniqueOids →
      w.mibtab.above cur < fuel →
      (∀ o ∈ w.mibtab.oids, oidLt cur o.oid = true → oidLt requestedOid o.oid = true) →
      (∀ o ∈ w.mibtab.oids, oidLt requestedOid o.oid = true → oidLt cur o.oid = false →
        o.getAccessMode = AccessMode.NOT_ACCESSIBLE) →
      ∃ w1 visited, snmp_getnext_loop X fuel w requestedOid cur = some w1 ∧
        List.length visited ≤ w.mibtab.above cur + 1 ∧ w1.snmpValue = w.snmpValue ∧
        ((∃ r, SmallestAccessibleAfter w.mibtab requestedOid r ∧
            w1.cout = w.cout ++ [r.oid, X.primitiveType r.type,
              X.printable r.type (X.event w.snmpValue w.mibtab.oids requestedOid EventMode.GET r)] ∧
            w1.calls = w.calls ++ visited.map Call.getNextOid
              ++ [Call.fetchAndExec requestedOid EventMode.GET] ∧
            w1.mibtab = w.mibtab.mapValues (X.event w.snmpValue w.mibtab.oids requestedOid EventMode.GET)) ∨
          ((∀ o ∈ w.mibtab.oids, oidLt requestedOid o.oid = true →
              o.getAccessMode = AccessMode.NOT_ACCESSIBLE) ∧
            w1.cout = w.cout ++ ["no-such-name"] ∧
            w1.calls = w.calls ++ visited.map Call.getNextOid ∧
            w1.mibtab = w.mibtab)) := by
  intro fuel
  induction fuel with
  | zero => intro w cur _ h; exact absurd h (Nat.not_lt_zero _)
  | succ fuel ih =>
    intro w cur hU hfuel hI1 hI2
    rw [snmp_getnext_loop]
    simp only [record_mibtab]
    cases hres : w.mibtab.oids.foldl (nextStep cur) none with
    | none =>
      obtain ⟨hn, hnone⟩ := getNextOid_eq_empty hres
      refine ⟨(w.record (Call.getNextOid cur)).println "no-such-name", [cur], ?_, ?_, ?_, ?_⟩
      · simp [hn]
      · simp
      · simp
      · right
        refine ⟨?_, by simp, by simp, by simp⟩
        intro o ho hso
        exact hI2 o ho hso (hnone o ho)
    | some n =>
      obtain ⟨hn, ⟨c, hc, hcn⟩, hcurn, hmin⟩ := getNextOid_eq_some hres
      have hne : n ≠ "" := by
        intro h
        rw [h, oidLt_empty] at hcurn
        exact Bool.noConfusion hcurn
      have hfound : ∃ q, w.mibtab.getOidByOid n = some q := by
        cases hf : w.mibtab.getOidByOid n with
        | some q => exact ⟨q, rfl⟩
        | none => exact absurd hcn (findOid_eq_none.1 hf c hc)
      obtain ⟨q, hq⟩ := hfound
      have hqlt : q < w.mibtab.oids.length := getOidByOid_lt hq
      have hqoid : (w.mibtab.at q).oid = n := getOidByOid_oid hq
      have hqmem : w.mibtab.at q ∈ w.mibtab.oids := at_mem hqlt
      have hsn : oidLt requestedOid n = true := by
        have := hI1 c hc (by rw [hcn]; exact hcurn)
        rwa [hcn] at this
      simp only [hn, hne, if_false, hq]
      by_cases hacc : (w.mibtab.at q).getAccessMode = AccessMode.NOT_ACCESSIBLE
      · simp only [hacc, if_true]
        have hstep : w.mibtab.above n < w.mibtab.above cur := by
          have := above_lt hqmem (by rw [hqoid]; exact hcurn)
          rwa [hqoid] at this
        obtain ⟨w1, visited, h1, h2, h3, h4⟩ := ih (w.record (Call.getNextOid cur)) n hU
          (by simp only [record_mibtab]; omega)
          (by
            intro o ho hno
            exact oidLt_trans hsn hno)
          (by
            intro o ho hso hno
            by_cases hco : oidLt cur o.oid = true
            · have h5 := hmin o ho hco
              have h6 : components o.oid = components (w.mibtab.at q).oid := by
                rw [hqoid]
                exact components_eq_of_not_lt h5 hno
              rw [hU o ho (w.mibtab.at q) hqmem h6]
              exact hacc
            · exact hI2 o ho hso (by simpa using hco))
        refine ⟨w1, cur :: visited, h1, ?_, ?_, ?_⟩
        · simp only [record_mibtab] at h2
          simp only [List.length_cons]
          omega
        · simpa using h3
        · simp only [record_mibtab, record_cout, record_calls, record_snmpValue] at h4
          rcases h4 with ⟨r, hr, h5, h6, h7⟩ | ⟨hall, h5, h6, h7⟩
          · exact Or.inl ⟨r, hr, h5, by simp [h6], h7⟩
          · exact Or.inr ⟨hall, h5, by simp [h6], h7⟩
      · simp only [hacc, if_false]
        refine ⟨_, [cur], rfl, by simp, by simp, Or.inl ⟨w.mibtab.at q, ?_, ?_, ?_, ?_⟩⟩
        · refine ⟨hqmem, by rw [hqoid]; exact hsn, hacc, ?_⟩
          intro o ho hso hoacc
          rw [hqoid]
          by_cases hco : oidLt cur o.oid = true
          · exact hmin o ho hco
          · exact absurd (hI2 o ho hso (by simpa using hco)) hoacc
        · simp [mapValues_at _ _ _ hqlt, Oid.getOid, Oid.getPrimitiveType, Oid.getPrintableValue]
        · simp
        · simp


/-- Claim C1. For every table with unique OIDs and every requested OID string `s`,
`snmp_getnext` (given fuel beyond the size of the table) returns, having
written exactly the three lines (OID, type tag, printable value after the GET
event) of the smallest table OID strictly greater than `s` that is not
NOT_ACCESSIBLE, the NOT_ACCESSIBLE ones in between being skipped; if there
is no such OID it has written exactly the single line `no-such-name`.  Here
`getNextOid` is the successor function of the specification (lemmas
`getNextOid_eq_empty` and `getNextOid_eq_some`). -/
theorem snmp_getnext_reply (X : Collab) (w : World) (requestedOid : String) (fuel : Nat)
    (hU : w.mibtab.uniqueOids) (hfuel : w.mibtab.oids.length < fuel) :
    (∀ r, SmallestAccessibleAfter w.mibtab requestedOid r →
      ∃ w1, snmp_getnext X fuel w requestedOid = some w1 ∧
        w1.cout = w.cout ++ [r.getOid, r.getPrimitiveType X,
          X.printable r.type (X.event w.snmpValue w.mibtab.oids requestedOid EventMode.GET r)]) ∧
    ((∀ o ∈ w.mibtab.oids, oidLt requestedOid o.oid = true →
        o.getAccessMode = AccessMode.NOT_ACCESSIBLE) →
      ∃ w1, snmp_getnext X fuel w requestedOid = some w1 ∧
        w1.cout = w.cout ++ ["no-such-name"]) := by
  obtain ⟨w1, visited, h1, _, _, h4⟩ := snmp_getnext_loop_spec X requestedOid fuel w requestedOid
    hU (lt_of_le_of_lt (above_le_length _ _) hfuel) (fun _ _ h => h)
    (fun o _ h1 h2 => by rw [h1] at h2; exact Bool.noConfusion h2)
  constructor
  · intro r hr
    refine ⟨w1, h1, ?_⟩
    rcases h4 with ⟨r1, hr1, h5, _, _⟩ | ⟨hall, _, _, _⟩
    · have heq : r1 = r := by
        apply hU r1 hr1.1 r hr.1
        exact components_eq_of_not_lt (hr.2.2.2 r1 hr1.1 hr1.2.1 hr1.2.2.1)
          (hr1.2.2.2 r hr.1 hr.2.1 hr.2.2.1)
      subst heq
      exact h5
    · exact absurd (hall r hr.1 hr.2.1) hr.2.2.1
  · intro hall
    refine ⟨w1, h1, ?_⟩
    rcases h4 with ⟨r1, hr1, _, _, _⟩ | ⟨_, h5, _, _⟩
    · exact absurd (hall r1 hr1.1 hr1.2.1) hr1.2.2.1
    · exact h5

/-- Scenario 5 of the specification: the NOT_ACCESSIBLE `1.3.6.1.1` is skipped;
and a request at the last OID. -/
theorem snmp_getnext_reply_witness :
    (∃ w1, snmp_getnext scenario 3
        (World.init [⟨"1.3.6.1.1", "INTEGER", "0", 0, "a"⟩, ⟨"1.3.6.1.2", "INTEGER", "5", 1, "b"⟩])
        "1.3.6.1.0" = some w1 ∧ w1.cout = ["1.3.6.1.2", "INTEGER", "5"]) ∧
    (∃ w1, snmp_getnext scenario 3
        (World.init [⟨"1.3.6.1.1", "INTEGER", "0", 0, "a"⟩, ⟨"1.3.6.1.2", "INTEGER", "5", 1, "b"⟩])
        "1.3.6.1.2" = some w1 ∧ w1.cout = ["no-such-name"]) := by
  constructor
  · obtain ⟨w1, h1, h2⟩ := (snmp_getnext_reply scenario
      (World.init [⟨"1.3.6.1.1", "INTEGER", "0", 0, "a"⟩, ⟨"1.3.6.1.2", "INTEGER", "5", 1, "b"⟩])
      "1.3.6.1.0" 3 (by decide) (by decide)).1 ⟨"1.3.6.1.2", "INTEGER", "5", 1, "b"⟩ (by decide)
    exact ⟨w1, h1, h2.trans (by decide)⟩
  · obtain ⟨w1, h1, h2⟩ := (snmp_getnext_reply scenario
      (World.init [⟨"1.3.6.1.1", "INTEGER", "0", 0, "a"⟩, ⟨"1.3.6.1.2", "INTEGER", "5", 1, "b"⟩])
      "1.3.6.1.2" 3 (by decide) (by decide)).2 (by decide)
    exact ⟨w1, h1, h2.trans (by decide)⟩

/-! ## Termination of GETNEXT -/

theorem record_eq_recordAll (w : World) (c : Call) : w.record c = w.recordAll [c] := rfl

theorem recordAll_recordAll (w : World) (cs ds : List Call) :
    (w.recordAll cs).recordAll ds = w.recordAll (cs ++ ds) := by
  simp [World.recordAll]

@[simp]
theorem recordAll_mibtab (w : World) (cs : List Call) : (w.recordAll cs).mibtab = w.mibtab := rfl
@[simp]
theorem recordAll_cout (w : World) (cs : List Call) : (w.recordAll cs).cout = w.cout := rfl
@[simp]
theorem recordAll_calls (w : World) (cs : List Call) :
    (w.recordAll cs).calls = w.calls ++ cs := rfl
@[simp]
theorem recordAll_snmpValue (w : World) (cs : List Call) :
    (w.recordAll cs).snmpValue = w.snmpValue := rfl
@[simp]
theorem printFrame_cout (X : Collab) (w : World) (p : Nat) :
    (w.printFrame X p).cout = w.cout ++ [(w.mibtab.at p).getOid,
      (w.mibtab.at p).getPrimitiveType X, (w.mibtab.at p).getPrintableValue X] := by
  simp [World.printFrame]
@[simp]
theorem printFrame_calls (X : Collab) (w : World) (p : Nat) :
    (w.printFrame X p).calls = w.calls := rfl
@[simp]
theorem printFrame_mibtab (X : Collab) (w : World) (p : Nat) :
    (w.printFrame X p).mibtab = w.mibtab := rfl
@[simp]
theorem printFrame_snmpValue (X : Collab) (w : World) (p : Nat) :
    (w.printFrame X p).snmpValue = w.snmpValue := rfl

/-- The loop of `snmp_getnext` with enough fuel returns, whatever the table: after
the calls `getNextOid` on the OIDs `visited`, and nothing written meanwhile, it
either writes `no-such-name` or runs the GET event of the requested OID and
writes the frame of an accessible entry above the OID it started from. -/
theorem snmp_getnext_loop_run (X : Collab) (requestedOid : String) :
    ∀ (fuel : Nat) (w : World) (cur : String), w.mibtab.above cur < fuel →
      ∃ visited : List String, visited ≠ [] ∧ visited.length ≤ w.mibtab.above cur + 1 ∧
        (snmp_getnext_loop X fuel w requestedOid cur
            = some ((w.recordAll (visited.map Call.getNextOid)).println "no-such-name") ∨
          ∃ q, q < w.mibtab.oids.length ∧
            (w.mibtab.at q).getAccessMode ≠ AccessMode.NOT_ACCESSIBLE ∧
            oidLt cur (w.mibtab.at q).oid = true ∧
            snmp_getnext_loop X fuel w requestedOid cur
              = some ((fetchAndExec X (w.recordAll (visited.map Call.getNextOid))
                  requestedOid EventMode.GET).printFrame X q)) := by
  intro fuel
  induction fuel with
  | zero => intro w cur h; exact absurd h (Nat.not_lt_zero _)
  | succ fuel ih =>
    intro w cur hfuel
    rw [snmp_getnext_loop]
    simp only [record_mibtab]
    cases hres : w.mibtab.oids.foldl (nextStep cur) none with
    | none =>
      obtain ⟨hn, _⟩ := getNextOid_eq_empty hres
      refine ⟨[cur], by simp, by simp, Or.inl ?_⟩
      simp [hn, record_eq_recordAll]
    | some n =>
      obtain ⟨hn, ⟨c, hc, hcn⟩, hcurn, _⟩ := getNextOid_eq_some hres
      have hne : n ≠ "" := by
        intro h
        rw [h, oidLt_empty] at hcurn
        exact Bool.noConfusion hcurn
      have hfound : ∃ q, w.mibtab.getOidByOid n = some q := by
        cases hf : w.mibtab.getOidByOid n with
        | some q => exact ⟨q, rfl⟩
        | none => exact absurd hcn (findOid_eq_none.1 hf c hc)
      obtain ⟨q, hq⟩ := hfound
      have hqlt : q < w.mibtab.oids.length := getOidByOid_lt hq
      have hqoid : (w.mibtab.at q).oid = n := getOidByOid_oid hq
      have hqmem : w.mibtab.at q ∈ w.mibtab.oids := at_mem hqlt
      simp only [hn, hne, if_false, hq]
      by_cases hacc : (w.mibtab.at q).getAccessMode = AccessMode.NOT_ACCESSIBLE
      · simp only [hacc, if_true]
        have hstep : w.mibtab.above n < w.mibtab.above cur := by
          have := above_lt hqmem (by rw [hqoid]; exact hcurn)
          rwa [hqoid] at this
        obtain ⟨visited, h1, h2, h3⟩ := ih (w.record (Call.getNextOid cur)) n
          (by simp only [record_mibtab]; omega)
        simp only [record_mibtab] at h2 h3
        have hrec : (w.record (Call.getNextOid cur)).recordAll (visited.map Call.getNextOid)
            = w.recordAll ((cur :: visited).map Call.getNextOid) := by
          rw [record_eq_recordAll, recordAll_recordAll]
          rfl
        rw [hrec] at h3
        refine ⟨cur :: visited, by simp, by simp only [List.length_cons]; omega, ?_⟩
        rcases h3 with h3 | ⟨q1, hq1, hq1acc, hq1lt, h3⟩
        · exact Or.inl h3
        · exact Or.inr ⟨q1, hq1, hq1acc, oidLt_trans hcurn hq1lt, h3⟩
      · simp only [hacc, if_false]
        refine ⟨[cur], by simp, by simp, Or.inr ⟨q, hqlt, hacc, by rw [hqoid]; exact hcurn, ?_⟩⟩
        simp [record_eq_recordAll, World.printFrame]

/-- Claim C16. `snmp_getnext` terminates for every table and every requested OID
string (`getNextOid` being the successor function of the specification, which
returns the empty string or a table OID strictly greater than its argument):
with fuel beyond the number of table OIDs it returns, its loop has called
`getNextOid` at most (number of table OIDs + 1) times, and it has written its
output once, after the last of these calls: either the single line
`no-such-name`, or the three lines of a frame after the one GET event. -/
theorem snmp_getnext_terminates (X : Collab) (w : World) (requestedOid : String) (fuel : Nat)
    (hfuel : w.mibtab.oids.length < fuel) :
    ∃ w1 visited, snmp_getnext X fuel w requestedOid = some w1 ∧
      List.length visited ≤ w.mibtab.oids.length + 1 ∧
      (w1 = (w.recordAll (visited.map Call.getNextOid)).println "no-such-name" ∨
        ∃ q, w1 = (fetchAndExec X (w.recordAll (visited.map Call.getNextOid))
          requestedOid EventMode.GET).printFrame X q) ∧
      (w1.calls = w.calls ++ visited.map Call.getNextOid ∨
        w1.calls = w.calls ++ visited.map Call.getNextOid
          ++ [Call.fetchAndExec requestedOid EventMode.GET]) ∧
      ((∃ line, w1.cout = w.cout ++ [line]) ∨ ∃ a b c, w1.cout = w.cout ++ [a, b, c]) := by
  obtain ⟨visited, _, h2, h3⟩ := snmp_getnext_loop_run X requestedOid fuel w requestedOid
    (lt_of_le_of_lt (above_le_length _ _) hfuel)
  have hlen : visited.length ≤ w.mibtab.oids.length + 1 :=
    le_trans h2 (Nat.succ_le_succ (above_le_length _ _))
  rcases h3 with h3 | ⟨q, _, _, _, h3⟩
  · exact ⟨_, visited, h3, hlen, Or.inl rfl, Or.inl (by simp),
      Or.inl ⟨"no-such-name", by simp⟩⟩
  · exact ⟨_, visited, h3, hlen, Or.inr ⟨q, rfl⟩, Or.inr (by simp),
      Or.inr ⟨_, _, _, printFrame_cout X _ q⟩⟩

/-- A table of two NOT_ACCESSIBLE entries and one READ_ONLY entry: three calls to
`getNextOid`, then the frame. -/
theorem snmp_getnext_terminates_witness :
    ∃ w1 visited, snmp_getnext scenario 4
        (World.init [⟨"1.3.6.1.1", "INTEGER", "0", 0, "a"⟩, ⟨"1.3.6.1.2", "INTEGER", "1", 0, "b"⟩,
          ⟨"1.3.6.1.3", "INTEGER", "5", 1, "c"⟩]) "1.3.6.1.0" = some w1 ∧
      List.length visited ≤ 4 ∧
      (w1.calls = List.map Call.getNextOid visited ∨
        w1.calls = List.map Call.getNextOid visited
          ++ [Call.fetchAndExec "1.3.6.1.0" EventMode.GET]) := by
  obtain ⟨w1, visited, h1, h2, _, h4, _⟩ := snmp_getnext_terminates scenario
    (World.init [⟨"1.3.6.1.1", "INTEGER", "0", 0, "a"⟩, ⟨"1.3.6.1.2", "INTEGER", "1", 0, "b"⟩,
      ⟨"1.3.6.1.3", "INTEGER", "5", 1, "c"⟩]) "1.3.6.1.0" 4 (by decide)
  exact ⟨w1, visited, h1, h2, by simpa [World.init] using h4⟩

/-! ## The event dispatched by GETNEXT -/

/-- When `snmp_getnext` writes a frame, the GET event it has run is the one of the
requested OID, which is never the OID of the frame. -/
theorem snmp_getnext_event_on_request (X : Collab) (w : World) (requestedOid : String)
    (fuel : Nat) (hfuel : w.mibtab.oids.length < fuel) :
    (∃ visited, snmp_getnext X fuel w requestedOid
        = some ((w.recordAll (List.map Call.getNextOid visited)).println "no-such-name")) ∨
    ∃ visited q, (w.mibtab.at q).oid ≠ requestedOid ∧
      snmp_getnext X fuel w requestedOid
        = some ((fetchAndExec X (w.recordAll (List.map Call.getNextOid visited))
            requestedOid EventMode.GET).printFrame X q) := by
  obtain ⟨visited, _, _, h3⟩ := snmp_getnext_loop_run X requestedOid fuel w requestedOid
    (lt_of_le_of_lt (above_le_length _ _) hfuel)
  rcases h3 with h3 | ⟨q, _, _, hlt, h3⟩
  · exact Or.inl ⟨visited, h3⟩
  · refine Or.inr ⟨visited, q, ?_, h3⟩
    intro heq
    rw [heq, oidLt_irrefl] at hlt
    exact Bool.noConfusion hlt

/-- Claim C12, on the code. Scenario 5 of the specification: `snmp_getnext` on
`1.3.6.1.0` writes the frame of the resolved successor `1.3.6.1.2`, and the
single GET event it dispatches is `fetchAndExec("1.3.6.1.0", GET)`, the one of
the requested OID, not `fetchAndExec("1.3.6.1.2", GET)` as the claim has it. -/
theorem snmp_getnext_dispatches_requested_oid :
    Option.map World.cout (snmp_getnext scenario 3
        (World.init [⟨"1.3.6.1.1", "INTEGER", "0", 0, "a"⟩, ⟨"1.3.6.1.2", "INTEGER", "5", 1, "b"⟩])
        "1.3.6.1.0") = some ["1.3.6.1.2", "INTEGER", "5"] ∧
    Option.map World.calls (snmp_getnext scenario 3
        (World.init [⟨"1.3.6.1.1", "INTEGER", "0", 0, "a"⟩, ⟨"1.3.6.1.2", "INTEGER", "5", 1, "b"⟩])
        "1.3.6.1.0")
      = some [Call.getNextOid "1.3.6.1.0", Call.getNextOid "1.3.6.1.1",
          Call.fetchAndExec "1.3.6.1.0" EventMode.GET] ∧
    Option.map (fun w1 => decide (Call.fetchAndExec "1.3.6.1.2" EventMode.GET ∈ w1.calls))
      (snmp_getnext scenario 3
        (World.init [⟨"1.3.6.1.1", "INTEGER", "0", 0, "a"⟩, ⟨"1.3.6.1.2", "INTEGER", "5", 1, "b"⟩])
        "1.3.6.1.0") = some false := by
  decide

/-! ## The Sequence primitive -/

theorem Sequence.setValues_eq (s : Sequence) (calls : List (String × String)) :
    s.setValues calls = s := by
  induction calls with
  | nil => rfl
  | cons c rest ih =>
    obtain ⟨oid, value⟩ := c
    simpa [Sequence.setValues, Sequence.setValue] using ih

/-- Claim C14. For every Sequence primitive, whatever string it was constructed with,
and every oid and value: `setValue(oid, value)` returns true and changes
nothing, and `getPrintableValue()` and `getValue()` return the empty string,
before and after any run of `setValue` calls. -/
theorem sequence_setValue_noop (s : Sequence) (oid value : String)
    (calls : List (String × String)) :
    (s.setValue oid value).1 = true ∧ (s.setValue oid value).2 = s ∧
    s.getPrintableValue = "" ∧ s.getValue = "" ∧
    ((s.setValues calls).setValue oid value).1 = true ∧
    (s.setValues calls).getPrintableValue = "" ∧ (s.setValues calls).getValue = "" ∧
    s.setValues calls = s :=
  ⟨rfl, rfl, rfl, rfl, rfl, rfl, rfl, Sequence.setValues_eq s calls⟩

/-! ## The bound check of Counter32 -/

theorem intRange_returned {m n : Int} (h : intRange m = Outcome.returned n) :
    - 2 ^ 31 ≤ n ∧ n ≤ 2 ^ 31 - 1 := by
  unfold intRange at h
  split at h
  · exact Outcome.noConfusion h
  · simp only [Outcome.returned.injEq] at h
    subst h
    omega

/-- What `std::stoi` returns fits a 32-bit `int`. -/
theorem stoi_range {value : String} {n : Int} (h : stoi value = Outcome.returned n) :
    - 2 ^ 31 ≤ n ∧ n ≤ 2 ^ 31 - 1 := by
  unfold stoi at h
  simp only at h
  split at h
  · exact Outcome.noConfusion h
  · exact intRange_returned h

/-- The comparison with `4294967295` never rejects: on an initialised module
`Counter32::setValue(oid, value)` either throws what `std::stoi` throws or
returns what the primitive returns. -/
theorem counter32_setValue_eq (primitiveSet : Gauge → String → String → Bool × Gauge)
    (g : Gauge) (oid value : String) :
    Counter32.setValue primitiveSet ⟨some g⟩ oid value
      = match stoi value with
        | Outcome.thrown e => Outcome.thrown e
        | Outcome.returned _ =>
          Outcome.returned ((primitiveSet g oid value).1, ⟨some (primitiveSet g oid value).2⟩) := by
  unfold Counter32.setValue
  simp only
  cases h : stoi value with
  | thrown e => rfl
  | returned n =>
    have := (stoi_range h).2
    have hn : ¬ n > 4294967295 := by omega
    simp [hn]

/-- Claim C13, on the code. On a Counter32 module whose primitive is initialised,
`setValue(oid, "4294967295")` does not pass the check: `std::stoi` throws
`std::out_of_range`, as it does for `"4294967296"`, which is therefore not
answered with `false` either; the largest value that passes is `"2147483647"`,
one more throws.  The bound the code enforces is 2^31-1 (by exception), not
2^32-1. -/
theorem counter32_setValue_bound :
    Counter32.setValue Gauge.setValue ⟨some ⟨7⟩⟩ "1.3.6.1.2.1.2.2.1.10.3" "4294967295"
      = Outcome.thrown StoiError.out_of_range ∧
    Counter32.setValue Gauge.setValue ⟨some ⟨7⟩⟩ "1.3.6.1.2.1.2.2.1.10.3" "4294967296"
      = Outcome.thrown StoiError.out_of_range ∧
    Counter32.setValue Gauge.setValue ⟨some ⟨7⟩⟩ "1.3.6.1.2.1.2.2.1.10.3" "2147483648"
      = Outcome.thrown StoiError.out_of_range ∧
    Counter32.setValue Gauge.setValue ⟨some ⟨7⟩⟩ "1.3.6.1.2.1.2.2.1.10.3" "2147483647"
      = Outcome.returned (true, ⟨some ⟨2147483647⟩⟩) := by
  decide

/-! ## Exit codes -/

/-- Claim C15, on the code. For the dump-schedule command with options and database
initialisation in order: a failed MIB load exits with 1 and a failed event
load with 2, but after both have succeeded the exit code is 0 whether
`dumpScheduling` succeeds or fails, because `exitcode = 0` follows the
assignment of 1. -/
theorem main_dump_schedule_exit_code (r : Run) :
    main { r with
      getOpts := true
      initializeDatabase := true
      command := Command.DUMP_SCHEDULE
      loadMibTable := true
      loadEvents := true
      dumpScheduling := false } = 0 ∧
    main { r with
      getOpts := true
      initializeDatabase := true
      command := Command.DUMP_SCHEDULE
      loadMibTable := true
      loadEvents := true
      dumpScheduling := true } = 0 ∧
    main { r with
      getOpts := true
      initializeDatabase := true
      command := Command.DUMP_SCHEDULE
      loadMibTable := false } = 1 ∧
    main { r with
      getOpts := true
      initializeDatabase := true
      command := Command.DUMP_SCHEDULE
      loadMibTable := true
      loadEvents := false } = 2 := by
  simp [main, assign]

/-! ## The replies of the daemon -/

/-- A `set` read by the daemon for a READ_WRITE OID served by the Counter32 module,
with a value `std::stoi` rejects: `setValue` throws, nothing is written and the
exception, which nothing catches, ends the process. -/
theorem daemon_command_uncaught :
    daemon_command scenarioCounter32 2
        (World.init [⟨"1.3.6.1.2.1.2.2.1.10.3", "COUNTER32", "17", 2, "ifInOctets"⟩]) "set"
        ["1.3.6.1.2.1.2.2.1.10.3", "GAUGE 4294967296"]
      = some ({ mibtab := ⟨[⟨"1.3.6.1.2.1.2.2.1.10.3", "COUNTER32", "17", 2, "ifInOctets"⟩]⟩,
                cout := [], snmpValue := none,
                calls := [Call.setValue "1.3.6.1.2.1.2.2.1.10.3" "4294967296"],
                uncaught := some StoiError.out_of_range }, []) := by
  decide

end murmure
